import Mathlib

/-! gofp: Result, Option, Either and the guarded-evaluation mechanism.

A shallow embedding of the Go package `github.com/Alsond5/gofp` and of its
sub-packages `result`, `option`, `either` and `tuple`.

* Go's interface type `error` is `Option ErrorValue`; `none` is the nil error.
* A Go call that may panic and has no other effect returns an `Outcome`.
* A Go function value (a callback the library calls) is a state transformer
  `Go σ α`: it receives the world `σ`, returns or panics, and leaves a new world.
  What the library calls, how often and in which order is read off the world.
* `var zero T` is `default` of `Inhabited T`; a slice `[]T` is a `List T`
  (a nil slice and an empty slice are both `[]`).
* Values of the structs `Result[T]` and `Option[T]` are all values of the Go
  struct types, the zero values `Result[T]{}` and `Option[T]{}` included.
* Error values are compared by what they hold; the identity of the pointer that
  `errors.Join` allocates is not part of the embedding.
* `panic(v)` raises what `v` is as an interface value (`PanicArg`): `v` itself
  for a type that is not an interface, the value held for an interface type
  such as `any`, and a `*runtime.PanicNilError` for a nil interface value.
-/

/-- A non-nil Go `error` value: the library's own `ResultError` (a string type),
the aggregate built by `errors.Join`, or any other error, known by a label. -/
inductive ErrorValue where
  | resultError (msg : String)
  | foreign (label : String)
  | joinError (errs : List ErrorValue)

/-- The Go interface type `error`; `none` is the nil error. -/
abbrev error := Option ErrorValue

namespace errors

/-- The standard library's `errors.Join`: nil when every argument is nil, else a
join error holding the non-nil arguments in argument order. -/
def Join (errs : List error) : error :=
  let n := (errs.filter (fun e => e.isSome)).length
  if n = 0 then none else some (ErrorValue.joinError (errs.filterMap id))

end errors

/-- A value handed to Go's `panic`, as `recover()` gives it back: the library's
`resultPanic{err}` struct, or any other Go value (a string, a value of a type
parameter, ...). A panic always carries a value: `recover()` is nil only when
there is no panic. -/
inductive PanicValue : Type 1 where
  | resultPanic (err : error)
  | other (T : Type) (v : T)

/-- The type assertion `rec.(resultPanic)`: the wrapped error when the dynamic
type of the panic value is `resultPanic`. -/
def PanicValue.asResultPanic : PanicValue → Option error
  | .resultPanic err => some err
  | .other _ _ => none

/-- How a Go call ends: it returns a value, or it panics with a panic value. -/
inductive Outcome (α : Type) : Type 1 where
  | ret (v : α)
  | panic (p : PanicValue)

namespace Outcome

/-- Sequencing of Go statements: a panic skips what follows. -/
def bind {α β : Type} (o : Outcome α) (k : α → Outcome β) : Outcome β :=
  match o with
  | .ret v => k v
  | .panic p => .panic p

instance : Monad Outcome where
  pure := Outcome.ret
  bind := Outcome.bind

/-- The outcome with its returned value (when there is one) passed through `f`. -/
def map {α β : Type} (f : α → β) : Outcome α → Outcome β
  | .ret v => .ret (f v)
  | .panic p => .panic p

end Outcome

/-- A Go function value run in a world `σ`: outcome and the world it leaves. -/
def Go (σ α : Type) : Type 1 := σ → Outcome α × σ

namespace Go

/-- Sequencing: the second computation runs in the world left by the first, and
not at all when the first panics. -/
def bind {σ α β : Type} (m : Go σ α) (k : α → Go σ β) : Go σ β := fun s =>
  match m s with
  | (.ret v, s1) => k v s1
  | (.panic p, s1) => (.panic p, s1)

instance {σ : Type} : Monad (Go σ) where
  pure := fun v s => (Outcome.ret v, s)
  bind := Go.bind

/-- A call without effect on the world. -/
def lift {σ α : Type} (o : Outcome α) : Go σ α := fun s => (o, s)

/-- The composition `g∘f` of two Go functions: the function that calls `f`, then
`g` on what `f` returned. -/
def comp {σ α β γ : Type} (g : β → Go σ γ) (f : α → Go σ β) : α → Go σ γ :=
  fun a => do
    let b ← f a
    g b

end Go

/-- Whether a call ended by panicking with the `resultPanic` sentinel. -/
def Outcome.isSentinel {α : Type} : Outcome α → Bool
  | .panic (.resultPanic _) => true
  | _ => false

namespace runtime

/-- The standard library's `runtime.PanicNilError`: what `recover()` gives back
after `panic(nil)`, and after `panic(v)` for a nil interface value `v`. -/
structure PanicNilError where

end runtime

/-- How `panic(v)` sees a value `v` of the Go type `T`: the panic value that
`recover()` gives back. For a type that is not an interface it is `v` itself,
with dynamic type `T`; for an interface type it is the value that `v` holds. -/
class PanicArg (T : Type) where
  toPanic : T → PanicValue

/-- A type without an instance of its own is not an interface type: the panic
value is the value itself. -/
instance (priority := low) {T : Type} : PanicArg T :=
  ⟨fun v => PanicValue.other T v⟩

/-- Go's interface type `any`: nil, a value of the library's struct `resultPanic`
(a caller cannot name the type, but gets such a value from `recover()` when
`Result.Unwrap` failed outside `Try`), or a value of another dynamic type, known
by a label. -/
inductive Any where
  | nil
  | resultPanic (err : error)
  | other (label : String)

/-- The zero value of `any` is nil. -/
instance : Inhabited Any := ⟨Any.nil⟩

/-- `panic(v)` for `v` of type `any` raises the value `v` holds; for nil it
raises a `*runtime.PanicNilError`. -/
instance : PanicArg Any where
  toPanic
    | .nil => PanicValue.other runtime.PanicNilError {}
    | .resultPanic err => PanicValue.resultPanic err
    | .other label => PanicValue.other Any (.other label)

/-- `panic(v)` for `v` of the interface type `error` raises the error value `v`
holds; for nil it raises a `*runtime.PanicNilError`. -/
instance : PanicArg error where
  toPanic
    | none => PanicValue.other runtime.PanicNilError {}
    | some e => PanicValue.other ErrorValue e

/-- What `captured = recover()` in a deferred function stores in a variable of
type `any` after a call that ended with the given outcome. -/
def recoverAsAny {α : Type} : Outcome α → Any
  | .ret _ => .nil
  | .panic (.resultPanic err) => .resultPanic err
  | .panic (.other _ _) => .other "recovered"

namespace gofp

/-- The struct `Result[T]` of result.go. -/
structure Result (T : Type) where
  value : T
  err : error
  ok : Bool

/-- The zero value of the struct `Result[T]`. -/
instance {T : Type} [Inhabited T] : Inhabited (Result T) :=
  ⟨{ value := default, err := none, ok := false }⟩

/-- The struct `Option[T]` of option.go. -/
structure Option (T : Type) where
  value : T
  ok : Bool

/-- The zero value of the struct `Option[T]`. -/
instance {T : Type} [Inhabited T] : Inhabited (Option T) :=
  ⟨{ value := default, ok := false }⟩

/-- The constant `ErrNoResults` of errors.go. -/
def ErrNoResults : ErrorValue := .resultError "result: no results provided"

/-- `Ok` of result.go; the field `err` is left at its zero value, nil. -/
def Ok {T : Type} (value : T) : Result T :=
  { value := value, err := none, ok := true }

/-- `Err` of result.go. -/
def Err {T : Type} [Inhabited T] (err : error) : Result T :=
  if err.isNone then
    { value := default, err := none, ok := true }
  else
    { value := default, err := err, ok := false }

/-- `Of` of result.go. -/
def Of {T : Type} [Inhabited T] (value : T) (err : error) : Result T :=
  if err.isSome then
    { value := default, err := err, ok := false }
  else
    { value := value, err := none, ok := true }

/-- `Result.IsOk`. -/
def Result.IsOk {T : Type} (r : Result T) : Bool := r.ok

/-- `Result.IsErr`. -/
def Result.IsErr {T : Type} (r : Result T) : Bool := !r.ok

/-- `Result.Unwrap`: on a failure it panics with the `resultPanic` sentinel. -/
def Result.Unwrap {T : Type} (r : Result T) : Outcome T :=
  if !r.ok then .panic (.resultPanic r.err) else .ret r.value

/-- `Result.UnwrapErr`: on a success it is `panic(r.value)`, the panic value is
what the stored value is as an interface value. -/
def Result.UnwrapErr {T : Type} [PanicArg T] (r : Result T) : Outcome error :=
  if r.ok then .panic (PanicArg.toPanic r.value) else .ret r.err

/-- `Result.UnwrapOr`. -/
def Result.UnwrapOr {T : Type} (r : Result T) (defaultValue : T) : T :=
  if !r.ok then defaultValue else r.value

/-- `Try` of result.go. The deferred function sees `recover()`: nothing when `f`
returned (the result stays `Ok(f())`), else the panic value; a `resultPanic`
becomes `Err(rp.err)`, any other value is panicked again. -/
def Try {σ T : Type} [Inhabited T] (f : Go σ T) : Go σ (Result T) := fun s =>
  match f s with
  | (.ret v, s1) => (.ret (Ok v), s1)
  | (.panic rec, s1) =>
    match rec.asResultPanic with
    | some rpErr => (.ret (Err rpErr), s1)
    | none => (.panic rec, s1)

/-- The computation handed to `Try` for a chain of Result-producing steps: the
steps run in order, each on the value extracted from the one before, and each
Result is extracted with `Result.Unwrap`; the last value is returned. -/
def unwrapChain {σ V : Type} : List (V → Go σ (Result V)) → V → Go σ V
  | [], v => pure v
  | step :: rest, v => do
    let r ← step v
    let v1 ← Go.lift r.Unwrap
    unwrapChain rest v1

/-- The same chain with explicit branch checks, as the spec words it: after each
step `IsErr` is tested and `Err(E)` is returned early, E being the failure of
that step; without a failure the last value is returned in `Ok`. -/
def checkedChain {σ V : Type} [Inhabited V] :
    List (V → Go σ (Result V)) → V → Go σ (Result V)
  | [], v => pure (Ok v)
  | step :: rest, v => do
    let r ← step v
    if r.IsErr then
      pure (Err r.err)
    else
      checkedChain rest r.value

/-- Every step of the list returns a success: started on `v` in world `s`, each
step returns a Result with `IsOk`, the next one runs on its value in the world
it left, and the last value and world are `v1` and `s1`. -/
def succeedsTo {σ V : Type} : List (V → Go σ (Result V)) → V → σ → V → σ → Prop
  | [], v, s, v1, s1 => v1 = v ∧ s1 = s
  | step :: rest, v, s, v1, s1 =>
    ∃ r s2, step v s = (.ret r, s2) ∧ r.IsOk = true ∧ succeedsTo rest r.value s2 v1 s1

/-- A step that records its number in the world (the list of the steps run so
far) and returns the Result `r` computes from the incoming value. -/
def loggedStep (i : Nat) (r : Nat → Result Nat) : Nat → Go (List Nat) (Result Nat) :=
  fun v s => (.ret (r v), s ++ [i])

/-- Three steps, numbered 0, 1, 2: the second one fails. -/
def sampleSteps : List (Nat → Go (List Nat) (Result Nat)) :=
  [loggedStep 0 (fun v => Ok (v + 1)),
   loggedStep 1 (fun _ => Err (some (.foreign "E"))),
   loggedStep 2 (fun v => Ok (v + 1))]


/-- `Some` of option.go. -/
def Some {T : Type} (value : T) : Option T := { value := value, ok := true }

/-- `None` of option.go: the zero value of the struct. -/
def None {T : Type} [Inhabited T] : Option T := { value := default, ok := false }

/-- `Option.Match` of option.go: the `if` has no `else` and no `return`, the call
of `noneFn` is the statement after it. -/
def Option.Match {σ T : Type} (o : Option T) (someFn : T → Go σ Unit)
    (noneFn : Go σ Unit) : Go σ Unit := do
  if o.ok then
    someFn o.value
  noneFn

namespace either

/-- The struct `Either[L, R]` of either/either.go. -/
structure Either (L R : Type) where
  left : L
  right : R
  isLeft : Bool

/-- `Left` of either/either.go; the field `right` stays at its zero value. -/
def Left {L R : Type} [Inhabited R] (value : L) : Either L R :=
  { left := value, right := default, isLeft := true }

/-- `Right` of either/either.go; the field `left` stays at its zero value. -/
def Right {L R : Type} [Inhabited L] (value : R) : Either L R :=
  { left := default, right := value, isLeft := false }

end either

/-- `TryCatch` of result.go. As in `Try`, the deferred function acts on what
`recover()` gives: on a `resultPanic` it calls `catch(rp.err)` and stores
`Right` of what that returns (a panic of `catch` leaves the deferred function
as a panic); any other panic value is panicked again. -/
def TryCatch {σ L R : Type} [Inhabited L] [Inhabited R] (tryFn : Go σ L)
    (catchFn : error → Go σ R) : Go σ (either.Either L R) := fun s =>
  match tryFn s with
  | (.ret l, s1) => (.ret (either.Left l), s1)
  | (.panic rec, s1) =>
    match rec.asResultPanic with
    | some rpErr =>
      match catchFn rpErr s1 with
      | (.ret c, s2) => (.ret (either.Right c), s2)
      | (.panic p, s2) => (.panic p, s2)
    | none => (.panic rec, s1)

/-- A computation that counts itself in the world and then panics with a string,
as `panic("boom")` does. -/
def sampleFault : Go Nat Nat := fun n => (.panic (.other String "boom"), n + 1)

/-- A call that adds one to the world and returns. -/
def sampleTick : Go Nat Unit := fun n => (.ret (), n + 1)

/-- A computation that counts itself in the world and then calls `Unwrap` on the
failing Result `Err(E)`. -/
def sampleUnwrapFailure : Go Nat Nat := do
  let _ ← sampleTick
  let v ← Go.lift (Err (some (.foreign "E")) : Result Nat).Unwrap
  pure v

/-- A `catch` callback that adds 100 to the world each time it is called, and
returns the failure it was called with. -/
def sampleCatch : error → Go Nat error := fun e n => (.ret e, n + 100)

/-- The identity on `int`, as a Go function without effect. -/
def sampleIdentity : Nat → Go Unit Nat := fun t => pure t

/-- The successor on `int`, as a Go function without effect. -/
def sampleSuccessor : Nat → Go Unit Nat := fun u => pure (u + 1)

/-- A `someFn` callback that counts its calls in the first component of the world. -/
def countSome : Nat → Go (Nat × Nat) Unit := fun _ w => (.ret (), (w.1 + 1, w.2))

/-- A `noneFn` callback that counts its calls in the second component of the world. -/
def countNone : Go (Nat × Nat) Unit := fun w => (.ret (), (w.1, w.2 + 1))

namespace result

/-- `Map` of result/funcs.go. -/
def Map {σ T U : Type} [PanicArg T] [Inhabited U] (r : Result T) (f : T → Go σ U) :
    Go σ (Result U) :=
  if r.IsErr then do
    let e ← Go.lift r.UnwrapErr
    pure (Err e)
  else do
    let v ← Go.lift r.Unwrap
    let u ← f v
    pure (Ok u)

/-- The `for range` loop of `AllOf`, from the values appended so far. -/
def AllOf.loop {T : Type} [PanicArg T] (values : List T) :
    List (Result T) → Outcome (Result (List T))
  | [] => pure (Ok values)
  | r :: rest =>
    if r.IsErr then do
      let e ← r.UnwrapErr
      pure (Err e)
    else do
      let v ← r.Unwrap
      AllOf.loop (values ++ [v]) rest

/-- `AllOf` of result/funcs.go. -/
def AllOf {T : Type} [PanicArg T] (results : List (Result T)) :
    Outcome (Result (List T)) :=
  AllOf.loop [] results

/-- The `for range` loop of `AllOfCollectErrs`, from the values and the errors
appended so far; it gives both slices as they are after the loop. -/
def AllOfCollectErrs.loop {T : Type} [PanicArg T] (values : List T) (errs : List error) :
    List (Result T) → Outcome (List T × List error)
  | [] => pure (values, errs)
  | r :: rest =>
    if r.IsErr then do
      let e ← r.UnwrapErr
      AllOfCollectErrs.loop values (errs ++ [e]) rest
    else do
      let v ← r.Unwrap
      AllOfCollectErrs.loop (values ++ [v]) errs rest

/-- `AllOfCollectErrs` of result/funcs.go. -/
def AllOfCollectErrs {T : Type} [PanicArg T] (results : List (Result T)) :
    Outcome (Result (List T)) := do
  let (values, errs) ← AllOfCollectErrs.loop [] [] results
  if errs.length > 0 then
    pure (Err (errors.Join errs))
  else
    pure (Ok values)

/-- The `for range` loop of `FirstOk`, from the errors appended so far, with the
`return` that follows it. -/
def FirstOk.loop {T : Type} [PanicArg T] [Inhabited T] (errs : List error) :
    List (Result T) → Outcome (Result T)
  | [] => pure (Err (errors.Join errs))
  | r :: rest =>
    if r.IsOk then
      pure r
    else do
      let e ← r.UnwrapErr
      FirstOk.loop (errs ++ [e]) rest

/-- `FirstOk` of result/funcs.go. -/
def FirstOk {T : Type} [PanicArg T] [Inhabited T] (results : List (Result T)) :
    Outcome (Result T) :=
  if results.length = 0 then
    pure (Err (some ErrNoResults))
  else
    FirstOk.loop [] results

/-- The failures of the failing inputs, in input order. -/
def failuresOf {T : Type} (results : List (Result T)) : List error :=
  (results.filter (fun r => r.IsErr)).map (fun r => r.err)

end result

end gofp

namespace gofp

namespace tuple

/-- The struct `Pair[A, B]` of tuple/tuple.go. -/
structure Pair (A B : Type) where
  First : A
  Second : B

/-- The zero value of the struct `Pair[A, B]`. -/
instance {A B : Type} [Inhabited A] [Inhabited B] : Inhabited (Pair A B) :=
  ⟨{ First := default, Second := default }⟩

/-- The struct `Triple[A, B, C]` of tuple/tuple.go. -/
structure Triple (A B C : Type) where
  First : A
  Second : B
  Third : C

/-- The zero value of the struct `Triple[A, B, C]`. -/
instance {A B C : Type} [Inhabited A] [Inhabited B] [Inhabited C] :
    Inhabited (Triple A B C) :=
  ⟨{ First := default, Second := default, Third := default }⟩

end tuple

/-- `Do` of result.go. The type `Unit` is declared outside the files at hand: it
is the parameter `U`, and the literal `Unit{}` is its zero value. -/
def Do (U : Type) [Inhabited U] (err : error) : Result U :=
  if err.isSome then
    Err err
  else
    Ok default

/-- `Of2` of result.go. -/
def Of2 {A B : Type} [Inhabited A] [Inhabited B] (a : A) (b : B) (err : error) :
    Result (tuple.Pair A B) :=
  if err.isSome then
    Err err
  else
    Ok { First := a, Second := b }

/-- `Of3` of result.go. -/
def Of3 {A B C : Type} [Inhabited A] [Inhabited B] [Inhabited C] (a : A) (b : B) (c : C)
    (err : error) : Result (tuple.Triple A B C) :=
  if err.isSome then
    Err err
  else
    Ok { First := a, Second := b, Third := c }

/-- `Result.IntoErr`. -/
def Result.IntoErr {T : Type} (r : Result T) : error := r.err

/-- `Result.IntoOk`. -/
def Result.IntoOk {T : Type} (r : Result T) : T := r.value

/-- `Result.Unpack`: the two returned values as a pair. -/
def Result.Unpack {T : Type} (r : Result T) : T × error := (r.value, r.err)

/-- `Result.MapErr`. -/
def Result.MapErr {σ T : Type} [Inhabited T] (r : Result T) (f : error → Go σ error) :
    Go σ (Result T) :=
  if !r.ok then do
    let e ← f r.err
    pure (Err e)
  else
    pure r

/-- `Result.OrElse`. -/
def Result.OrElse {σ T : Type} (r : Result T) (f : error → Go σ (Result T)) :
    Go σ (Result T) :=
  if !r.ok then
    f r.err
  else
    pure r

/-- `Result.Or`. -/
def Result.Or {T : Type} (r alternative : Result T) : Result T :=
  if !r.ok then alternative else r

/-- `Option.IsSome`. -/
def Option.IsSome {T : Type} (o : Option T) : Bool := o.ok

/-- `Option.IsNone`. -/
def Option.IsNone {T : Type} (o : Option T) : Bool := !o.ok

/-- `Option.Unwrap`: on None it panics with a string. -/
def Option.Unwrap {T : Type} (o : Option T) : Outcome T :=
  if !o.ok then .panic (.other String "option.Unwrap() called on None") else .ret o.value

/-- `Option.Xor`. -/
def Option.Xor {T : Type} [Inhabited T] (o other : Option T) : Option T :=
  if o.ok && !other.ok then
    o
  else if !o.ok && other.ok then
    other
  else
    None

/-- `Option.OkOr`. -/
def Option.OkOr {T : Type} [Inhabited T] (o : Option T) (err : error) : Result T :=
  if o.ok then Ok o.value else Err err

/-- `Transpose` of option.go. -/
def Transpose {T : Type} [Inhabited T] (o : Option (Result T)) : Result (Option T) :=
  if !o.ok then
    Ok None
  else
    let inner := o.value
    if !inner.ok then
      Err inner.err
    else
      Ok (Some inner.value)

/-- A computation that runs `pre`, calls `Unwrap` on the Result `r` makes of what
`pre` returned, and goes on with `rest` on the extracted value. -/
def unwrapWithin {σ A B T : Type} (pre : Go σ A) (r : A → Result B) (rest : B → Go σ T) :
    Go σ T := do
  let x ← pre
  let v ← Go.lift (r x).Unwrap
  rest v

/-- The invariant of a Result: `IsOk` implies that the stored failure is nil;
`IsErr` implies that the stored failure is not nil and that the stored value is
the zero value. -/
def Result.WellFormed {T : Type} [Inhabited T] (r : Result T) : Prop :=
  (r.IsOk = true → r.IntoErr = none)
  ∧ (r.IsErr = true → r.IntoErr ≠ none ∧ r.IntoOk = default)

end gofp

/-- Every value the computation returns, in whatever world it is run, satisfies
`P`. -/
def Go.returnsOnly {σ α : Type} (P : α → Prop) (m : Go σ α) : Prop :=
  ∀ s r s1, m s = (.ret r, s1) → P r

namespace gofp

namespace either

/-- `Either.IsLeft`. -/
def Either.IsLeft {L R : Type} (e : Either L R) : Bool := e.isLeft

/-- `Either.IsRight`. -/
def Either.IsRight {L R : Type} (e : Either L R) : Bool := !e.isLeft

/-- `Either.UnwrapLeft`: on a Right it panics with a string. -/
def Either.UnwrapLeft {L R : Type} (e : Either L R) : Outcome L :=
  if !e.isLeft then
    .panic (.other String "either.UnwrapLeft: called on Right")
  else
    .ret e.left

/-- `Either.UnwrapRight`: on a Left it panics with a string. -/
def Either.UnwrapRight {L R : Type} (e : Either L R) : Outcome R :=
  if e.isLeft then
    .panic (.other String "either.UnwrapRight: called on Left")
  else
    .ret e.right

/-- `FromResult` of either/either.go; the parameter `isOk` is not read, and the
type parameter `E` does not occur in the signature. -/
def FromResult {T : Type} [Inhabited T] (isOk : Bool) (value : T) (err : error) :
    Either T error :=
  if err.isNone then
    Left value
  else
    Right err

/-- `ToResult` of either/either.go: the two returned values as a pair. -/
def ToResult {T : Type} [Inhabited T] (e : Either T error) : T × error :=
  if e.isLeft then
    (e.left, none)
  else
    (default, e.right)

/-- `LeftOr` of either/either.go. -/
def LeftOr {T : Type} [Inhabited T] (e : Either T error) : T × error :=
  ToResult e

end either

namespace option

/-- `Map` of option/funcs.go. -/
def Map {σ T U : Type} [Inhabited U] (o : Option T) (f : T → Go σ U) : Go σ (Option U) :=
  if o.IsNone then
    pure None
  else do
    let v ← Go.lift o.Unwrap
    let u ← f v
    pure (Some u)

end option

namespace result

/-- `FlatMap` of result/funcs.go. -/
def FlatMap {σ T U : Type} [PanicArg T] [Inhabited U] (r : Result T)
    (f : T → Go σ (Result U)) :
    Go σ (Result U) :=
  if r.IsErr then do
    let e ← Go.lift r.UnwrapErr
    pure (Err e)
  else do
    let v ← Go.lift r.Unwrap
    f v

/-- The `for range` loop of `Partition`, from the two named results as they are
so far (both start nil). -/
def Partition.loop {T : Type} [PanicArg T] (values : List T) (errs : List error) :
    List (Result T) → Outcome (List T × List error)
  | [] => pure (values, errs)
  | r :: rest =>
    if r.IsOk then do
      let v ← r.Unwrap
      Partition.loop (values ++ [v]) errs rest
    else do
      let e ← r.UnwrapErr
      Partition.loop values (errs ++ [e]) rest

/-- `Partition` of result/funcs.go. -/
def Partition {T : Type} [PanicArg T] (results : List (Result T)) :
    Outcome (List T × List error) :=
  Partition.loop [] [] results

/-- The `for i, v := range slice` loop of `MapAll`, at index `i`, with the slice
`out` as assigned so far. -/
def MapAll.loop {σ T U : Type} (f : T → Go σ (Result U)) :
    List T → Nat → List (Result U) → Go σ (List (Result U))
  | [], _, out => pure out
  | v :: rest, i, out => do
    let r ← f v
    MapAll.loop f rest (i + 1) (out.set i r)

/-- `MapAll` of result/funcs.go; `make` gives a slice of `len(slice)` zero values. -/
def MapAll {σ T U : Type} [Inhabited U] (slice : List T) (f : T → Go σ (Result U)) :
    Go σ (List (Result U)) :=
  MapAll.loop f slice 0 (List.replicate slice.length default)

/-- `MapAllOk` of result/funcs.go. -/
def MapAllOk {σ T U : Type} [PanicArg U] [Inhabited U] (slice : List T)
    (f : T → Go σ (Result U)) :
    Go σ (Result (List U)) := do
  let rs ← MapAll slice f
  Go.lift (AllOf rs)

/-- The calls `f(x)` for the elements of the list, made in list order, and the
list of what they returned, in the same order. -/
def callEach {σ T U : Type} (f : T → Go σ (Result U)) : List T → Go σ (List (Result U))
  | [] => pure []
  | x :: xs => do
    let r ← f x
    let rs ← callEach f xs
    pure (r :: rs)

/-- The stored values of the Ok inputs, in input order. -/
def valuesOf {T : Type} (results : List (Result T)) : List T :=
  (results.filter (fun r => r.IsOk)).map (fun r => r.value)

end result

end gofp

namespace gofp

namespace result

/-- `AndThen` of result/funcs.go. -/
def AndThen {σ T U : Type} [PanicArg T] [Inhabited U] (r : Result T)
    (f : T → Go σ (Result U)) :
    Go σ (Result U) :=
  if r.IsErr then do
    let e ← Go.lift r.UnwrapErr
    pure (Err e)
  else do
    let v ← Go.lift r.Unwrap
    f v

/-- `Flatten` of result/funcs.go. -/
def Flatten {T : Type} [Inhabited T] (r : Result (Result T)) : Outcome (Result T) :=
  if r.IsErr then do
    let e ← r.UnwrapErr
    pure (Err e)
  else
    r.Unwrap

end result

/-- The value a caller holds in a variable of type `any` after
`Err[int](E).Unwrap()` failed outside `Try` and a deferred function stored
`recover()` in it. -/
def sampleRecovered : Any :=
  recoverAsAny (Err (some (.foreign "E")) : Result Nat).Unwrap

/-- A `MapErr` callback that counts its calls in the world and returns nil. -/
def sampleToNil : error → Go Nat error := fun _ n => (.ret none, n + 1)

/-- A `MapErr` callback that counts its calls in the world and wraps the failure
it is given in a join error. -/
def sampleWrap : error → Go Nat error :=
  fun e n => (.ret (errors.Join [e, some (.foreign "context")]), n + 1)

/-- A `FlatMap` callback that counts its calls in the world: it fails on 0 and
returns `Ok` of the predecessor otherwise. -/
def samplePred : Nat → Go Nat (Result Nat) := fun t n =>
  (.ret (if t = 0 then Err (some (.foreign "zero")) else Ok (t - 1)), n + 1)

end gofp

/-! # Theorems -/

namespace gofp

/-! ## Guarded evaluation: `Try` -/

theorem Try_cons_of_ok {σ V : Type} [Inhabited V] (step : V → Go σ (Result V))
    (rest : List (V → Go σ (Result V))) (v : V) (s s2 : σ) (r : Result V)
    (hstep : step v s = (.ret r, s2)) (hok : r.ok = true) :
    Try (unwrapChain (step :: rest) v) s = Try (unwrapChain rest r.value) s2 := by
  simp [Try, unwrapChain, bind, Go.bind, hstep, Go.lift, Result.Unwrap, hok]

theorem Try_cons_of_err {σ V : Type} [Inhabited V] (step : V → Go σ (Result V))
    (rest : List (V → Go σ (Result V))) (v : V) (s s2 : σ) (r : Result V)
    (hstep : step v s = (.ret r, s2)) (hok : r.ok = false) :
    Try (unwrapChain (step :: rest) v) s = (.ret (Err r.err), s2) := by
  simp [Try, unwrapChain, bind, Go.bind, hstep, Go.lift, Result.Unwrap, hok,
    PanicValue.asResultPanic]

theorem Try_of_succeedsTo {σ V : Type} [Inhabited V]
    (steps : List (V → Go σ (Result V))) (v0 v : V) (s0 s1 : σ)
    (h : succeedsTo steps v0 s0 v s1) :
    Try (unwrapChain steps v0) s0 = (.ret (Ok v), s1) := by
  induction steps generalizing v0 s0 with
  | nil =>
    obtain ⟨hv, hs⟩ := h
    subst hv hs
    rfl
  | cons step rest ih =>
    obtain ⟨r, s2, hstep, hok, hrest⟩ := h
    rw [Try_cons_of_ok step rest v0 s0 s2 r hstep hok]
    exact ih _ _ hrest

theorem Try_first_failure {σ V : Type} [Inhabited V]
    (steps : List (V → Go σ (Result V))) (v0 : V) (k : Nat) (hk : k < steps.length)
    (s0 sk s1 : σ) (vk : V) (r : Result V)
    (hpre : succeedsTo (steps.take k) v0 s0 vk sk)
    (hstep : steps[k] vk sk = (.ret r, s1)) (herr : r.IsErr = true) :
    Try (unwrapChain steps v0) s0 = (.ret (Err r.err), s1) := by
  induction steps generalizing v0 s0 k with
  | nil => simp at hk
  | cons step rest ih =>
    cases k with
    | zero =>
      obtain ⟨hv, hs⟩ := hpre
      subst hv hs
      have hok : r.ok = false := by simpa [Result.IsErr] using herr
      exact Try_cons_of_err step rest vk sk s1 r hstep hok
    | succ j =>
      obtain ⟨r0, s2, hst0, hok0, hrest⟩ := hpre
      rw [Try_cons_of_ok step rest v0 s0 s2 r0 hst0 hok0]
      exact ih r0.value j (by simpa using hk) s2 hrest hstep

theorem Try_unwrapChain_eq_checkedChain {σ V : Type} [Inhabited V]
    (steps : List (V → Go σ (Result V)))
    (hns : ∀ step ∈ steps, ∀ v s, (step v s).1.isSentinel = false) (v0 : V) :
    Try (unwrapChain steps v0) = checkedChain steps v0 := by
  induction steps generalizing v0 with
  | nil => rfl
  | cons step rest ih =>
    have ih1 := ih (fun st hst => hns st (List.mem_cons_of_mem _ hst))
    have h0 := hns step (List.mem_cons_self _ _) v0
    funext s
    have h1 := h0 s
    simp only [Try, unwrapChain, checkedChain, bind, Go.bind]
    rcases hst : step v0 s with ⟨o, s1⟩
    rw [hst] at h1
    cases o with
    | ret r =>
      cases hok : r.ok with
      | true =>
        have := congrFun (ih1 r.value) s1
        simp only [Try] at this
        simp [Go.lift, Result.Unwrap, Result.IsErr, hok, this]
      | false =>
        simp [Go.lift, Result.Unwrap, Result.IsErr, hok, PanicValue.asResultPanic, pure]
    | panic p =>
      cases p with
      | resultPanic e => simp [Outcome.isSentinel] at h1
      | other T v => simp [PanicValue.asResultPanic]

/-- C1. Short-circuit equivalence for `Try`. For a chain of Result-producing
steps run in order inside the computation handed to `Try`, each extracted with
`Result.Unwrap` (no step raises the sentinel by itself):
(1) if the steps before the k-th all return a success and the k-th returns a
failing Result with failure E, `Try` returns `Err(E)` in the world left by the
k-th step, whatever the steps after k are: none of them is run;
(2) if every step returns a success, `Try` returns `Ok` of the last value;
(3) `Try` of the chain is the same computation as the chain with an `IsErr`
check after each step and an early `return Err(E)`. -/
theorem Try_short_circuit_equivalence {σ V : Type} [Inhabited V]
    (steps : List (V → Go σ (Result V))) (v0 : V)
    (hns : ∀ step ∈ steps, ∀ v s, (step v s).1.isSentinel = false) :
    (∀ (k : Nat) (hk : k < steps.length) (s0 sk s1 : σ) (vk : V) (r : Result V),
        succeedsTo (steps.take k) v0 s0 vk sk →
        steps[k] vk sk = (.ret r, s1) → r.IsErr = true →
        Try (unwrapChain steps v0) s0 = (.ret (Err r.err), s1))
    ∧ (∀ (s0 s1 : σ) (v : V), succeedsTo steps v0 s0 v s1 →
        Try (unwrapChain steps v0) s0 = (.ret (Ok v), s1))
    ∧ Try (unwrapChain steps v0) = checkedChain steps v0 :=
  ⟨fun k hk s0 sk s1 vk r hpre hstep herr =>
      Try_first_failure steps v0 k hk s0 sk s1 vk r hpre hstep herr,
   fun s0 s1 v h => Try_of_succeedsTo steps v0 v s0 s1 h,
   Try_unwrapChain_eq_checkedChain steps hns v0⟩

/-- Three logging steps, the second failing with E: `Try` returns `Err(E)` and
the log of the steps run is [0, 1]. -/
theorem Try_short_circuit_equivalence_witness :
    (∀ step ∈ sampleSteps, ∀ v s, (step v s).1.isSentinel = false)
    ∧ Try (unwrapChain sampleSteps 0) [] = (.ret (Err (some (.foreign "E"))), [0, 1])
    ∧ Try (unwrapChain sampleSteps 0) = checkedChain sampleSteps 0 :=
  have hns : ∀ step ∈ sampleSteps, ∀ v s, (step v s).1.isSentinel = false := by
    intro step hstep v s
    simp only [sampleSteps, List.mem_cons, List.mem_singleton, List.not_mem_nil,
      or_false] at hstep
    rcases hstep with h | h | h <;> subst h <;> rfl
  ⟨hns,
   (Try_short_circuit_equivalence sampleSteps 0 hns).1 1 (by decide) [] [0] [0, 1] 1
      (Err (some (.foreign "E"))) ⟨Ok 1, [0], rfl, rfl, rfl, rfl⟩ rfl rfl,
   (Try_short_circuit_equivalence sampleSteps 0 hns).2.2⟩

/-- C2. Selectivity of `Try`: when the computation panics with a value that is
not the `resultPanic` sentinel, `Try` returns no Result at all, it ends with a
panic carrying the very same value, in the world the computation left. -/
theorem Try_propagates_foreign_fault {σ T : Type} [Inhabited T] (f : Go σ T)
    (s s1 : σ) (p : PanicValue) (hf : f s = (.panic p, s1))
    (hp : ∀ err, p ≠ PanicValue.resultPanic err) :
    Try f s = (.panic p, s1) ∧ ∀ (r : Result T) (s2 : σ), Try f s ≠ (.ret r, s2) := by
  have h : Try f s = (.panic p, s1) := by
    cases p with
    | resultPanic e => exact absurd rfl (hp e)
    | other U v => simp [Try, hf, PanicValue.asResultPanic]
  refine ⟨h, ?_⟩
  intro r s2 hr
  rw [h] at hr
  cases hr

/-- The string panic of `sampleFault` leaves `Try` as it is. -/
theorem Try_propagates_foreign_fault_witness :
    Try sampleFault 0 = (.panic (.other String "boom"), 1)
    ∧ ∀ (r : Result Nat) (s2 : Nat), Try sampleFault 0 ≠ (.ret r, s2) :=
  Try_propagates_foreign_fault sampleFault 0 1 (.other String "boom") rfl
    (fun _ h => PanicValue.noConfusion h)

/-! ## Guarded evaluation with recovery: `TryCatch` -/

/-- C3. `TryCatch(try, catch)`:
(1) when `try` returns `l`, the result is `Left(l)` in the world `try` left,
whatever `catch` is: `catch` is not called;
(2) when `try` reaches `Unwrap` of a failing Result with failure E, the outcome
and the world are those of one call `catch(E)` made in the world left at the
`Unwrap`, the returned value wrapped in `Right`;
(3) when `try` panics with a value that is not the sentinel, the same panic
value leaves `TryCatch`, in the world `try` left: `catch` is not called. -/
theorem TryCatch_cases {σ L R A B : Type} [Inhabited L] [Inhabited R]
    (tryFn : Go σ L) (catchFn : error → Go σ R)
    (pre : Go σ A) (r : A → Result B) (rest : B → Go σ L) (s s1 : σ) :
    (∀ l, tryFn s = (.ret l, s1) →
        TryCatch tryFn catchFn s = (.ret (either.Left l), s1))
    ∧ (∀ a, pre s = (.ret a, s1) → (r a).IsErr = true →
        TryCatch (do let x ← pre; let v ← Go.lift (r x).Unwrap; rest v) catchFn s
          = ((catchFn (r a).err s1).1.map either.Right, (catchFn (r a).err s1).2))
    ∧ (∀ p, tryFn s = (.panic p, s1) → (∀ err, p ≠ PanicValue.resultPanic err) →
        TryCatch tryFn catchFn s = (.panic p, s1)) := by
  refine ⟨?_, ?_, ?_⟩
  · intro l hl
    simp [TryCatch, hl]
  · intro a ha herr
    have hok : (r a).ok = false := by simpa [Result.IsErr] using herr
    rcases hc : catchFn (r a).err s1 with ⟨o, s2⟩
    cases o <;>
      simp [TryCatch, bind, Go.bind, ha, Go.lift, Result.Unwrap, hok,
        PanicValue.asResultPanic, hc, Outcome.map]
  · intro p hpanic hp
    cases p with
    | resultPanic e => exact absurd rfl (hp e)
    | other U v => simp [TryCatch, hpanic, PanicValue.asResultPanic]

/-- The three cases on a world that counts: `catch` adds 100 when called, the
`try` computations add 1. -/
theorem TryCatch_cases_witness :
    TryCatch (pure 5 : Go Nat Nat) sampleCatch 0 = (.ret (either.Left 5), 0)
    ∧ TryCatch sampleUnwrapFailure sampleCatch 0
        = (.ret (either.Right (some (.foreign "E"))), 101)
    ∧ TryCatch sampleFault sampleCatch 0 = (.panic (.other String "boom"), 1) :=
  ⟨(TryCatch_cases (pure 5 : Go Nat Nat) sampleCatch (pure () : Go Nat Unit)
      (fun _ => (Ok 0 : Result Nat)) pure 0 0).1 5 rfl,
   (TryCatch_cases sampleUnwrapFailure sampleCatch sampleTick
      (fun _ => (Err (some (.foreign "E")) : Result Nat)) pure 0 1).2.1 () rfl rfl,
   (TryCatch_cases sampleFault sampleCatch (pure () : Go Nat Unit)
      (fun _ => (Ok 0 : Result Nat)) pure 0 1).2.2 (.other String "boom") rfl
      (fun _ h => PanicValue.noConfusion h)⟩

/-! ## `Option.Match` -/

/-- C4. What `Option.Match` does on `Some(7)` with callbacks that count their
calls: `someFn` is called once and `noneFn` is called once too (the world ends
as (1, 1), not (1, 0)); on `None` only `noneFn` is called. In general, on
`Some(v)` the call `someFn(v)` is followed by the call of `noneFn`. -/
theorem Option_Match_Some_calls_both_branches :
    (Some 7).Match countSome countNone (0, 0) = (.ret (), (1, 1))
    ∧ (None : Option Nat).Match countSome countNone (0, 0) = (.ret (), (0, 1))
    ∧ ∀ (σ T : Type) (v : T) (someFn : T → Go σ Unit) (noneFn : Go σ Unit),
        (Some v).Match someFn noneFn = (do someFn v; noneFn) :=
  ⟨rfl, rfl, fun _ _ _ _ _ => rfl⟩

/-! ## Aggregating combinators of the package `result` -/

namespace result

theorem AllOf_loop_of_all_ok {T : Type} [PanicArg T] (rs : List (Result T)) (values : List T)
    (h : ∀ r ∈ rs, r.IsOk = true) :
    AllOf.loop values rs = .ret (Ok (values ++ rs.map (fun r => r.value))) := by
  induction rs generalizing values with
  | nil => simp [AllOf.loop, pure]
  | cons r rest ih =>
    have hr : r.ok = true := by simpa [Result.IsOk] using h r (List.mem_cons_self _ _)
    have hrest := ih (values ++ [r.value]) (fun x hx => h x (List.mem_cons_of_mem _ hx))
    simp [AllOf.loop, Result.IsErr, Result.Unwrap, hr, bind, Outcome.bind, hrest]

theorem AllOf_loop_of_first_err {T : Type} [PanicArg T] (rs : List (Result T)) (values : List T)
    (k : Nat) (hk : k < rs.length) (hpre : ∀ r ∈ rs.take k, r.IsOk = true)
    (herr : rs[k].IsErr = true) :
    AllOf.loop values rs = .ret (Err rs[k].err) := by
  induction rs generalizing values k with
  | nil => simp at hk
  | cons r rest ih =>
    cases k with
    | zero =>
      have hr : r.ok = false := by simpa [Result.IsErr] using herr
      simp [AllOf.loop, Result.IsErr, Result.UnwrapErr, hr, bind, Outcome.bind, pure]
    | succ j =>
      have hr : r.ok = true := by
        simpa [Result.IsOk] using hpre r (by simp)
      have hrest := ih (values ++ [r.value]) j (by simpa using hk)
        (fun x hx => hpre x (by simp [hx])) (by simpa using herr)
      simpa [AllOf.loop, Result.IsErr, Result.Unwrap, hr, bind, Outcome.bind] using hrest

/-- C5. `AllOf`: when every input is Ok it returns `Ok` of the stored values in
input order (`Ok` of the empty list for no inputs); when the inputs before
index k are Ok and input k fails, it returns `Err` of the failure of input k,
whatever the inputs after k are. Stated also on inputs built with the
constructors `Ok` and `Err`. -/
theorem AllOf_first_failure_wins {T : Type} [PanicArg T] [Inhabited T]
    (rs : List (Result T)) :
    ((∀ r ∈ rs, r.IsOk = true) → AllOf rs = .ret (Ok (rs.map (fun r => r.value))))
    ∧ (∀ (k : Nat) (hk : k < rs.length), (∀ r ∈ rs.take k, r.IsOk = true) →
        rs[k].IsErr = true → AllOf rs = .ret (Err rs[k].err))
    ∧ AllOf ([] : List (Result T)) = .ret (Ok [])
    ∧ (∀ vs : List T, AllOf (vs.map Ok) = .ret (Ok vs))
    ∧ (∀ (vs : List T) (e : ErrorValue) (post : List (Result T)),
        AllOf (vs.map Ok ++ Err (some e) :: post)
          = .ret { value := [], err := some e, ok := false }) := by
  refine ⟨?_, ?_, rfl, ?_, ?_⟩
  · intro h
    simpa [AllOf] using AllOf_loop_of_all_ok rs [] h
  · intro k hk hpre herr
    exact AllOf_loop_of_first_err rs [] k hk hpre herr
  · intro vs
    have := AllOf_loop_of_all_ok (vs.map Ok) [] (by simp [Result.IsOk, Ok])
    simpa [AllOf, Ok, Function.comp_def] using this
  · intro vs e post
    have hlen : vs.length < (vs.map Ok ++ (Err (some e) : Result T) :: post).length := by
      simp
    have hget : (vs.map Ok ++ (Err (some e) : Result T) :: post)[vs.length]
        = (Err (some e) : Result T) := by
      rw [List.getElem_append_right (by simp)]
      simp
    have := AllOf_loop_of_first_err (vs.map Ok ++ (Err (some e) : Result T) :: post) []
      vs.length hlen (by simp [Result.IsOk, Ok]) (by rw [hget]; simp [Result.IsErr, Err])
    rw [hget] at this
    simpa [AllOf, Err] using this

/-- Three successes, and two successes followed by the failures E and F. -/
theorem AllOf_first_failure_wins_witness :
    AllOf [Ok 1, Ok 2, Ok 3] = .ret (Ok [1, 2, 3])
    ∧ AllOf [Ok 1, Ok 2, Err (some (.foreign "E")), Err (some (.foreign "F"))]
        = .ret (Err (some (.foreign "E"))) :=
  ⟨(AllOf_first_failure_wins [Ok 1, Ok 2, Ok 3]).1 (by simp [Result.IsOk, Ok]),
   (AllOf_first_failure_wins
      [Ok 1, Ok 2, Err (some (.foreign "E")), Err (some (.foreign "F"))]).2.1 2
      (by decide) (by simp [Result.IsOk, Ok]) rfl⟩

theorem Join_length_eq (errs : List error) :
    (errs.filter (fun e => e.isSome)).length = (errs.filterMap id).length := by
  induction errs with
  | nil => rfl
  | cons e rest ih => cases e <;> simp [List.filter, ih]

theorem Join_of_all_nil (errs : List error) (h : errs.filterMap id = []) :
    errors.Join errs = none := by
  simp [errors.Join, Join_length_eq, h]

theorem Join_of_some_non_nil (errs : List error) (h : errs.filterMap id ≠ []) :
    errors.Join errs = some (ErrorValue.joinError (errs.filterMap id)) := by
  have : (errs.filterMap id).length ≠ 0 := by simpa using h
  simp [errors.Join, Join_length_eq, this]

theorem AllOfCollectErrs_loop_eq {T : Type} [PanicArg T] (rs : List (Result T)) (values : List T)
    (errs : List error) :
    AllOfCollectErrs.loop values errs rs
      = .ret (values ++ (rs.filter (fun r => r.IsOk)).map (fun r => r.value),
              errs ++ failuresOf rs) := by
  induction rs generalizing values errs with
  | nil => simp [AllOfCollectErrs.loop, failuresOf, pure]
  | cons r rest ih =>
    cases hr : r.ok with
    | true =>
      simp [AllOfCollectErrs.loop, Result.IsErr, Result.IsOk, Result.Unwrap, hr, bind,
        Outcome.bind, ih, failuresOf]
    | false =>
      simp [AllOfCollectErrs.loop, Result.IsErr, Result.IsOk, Result.UnwrapErr, hr, bind,
        Outcome.bind, ih, failuresOf]

theorem AllOfCollectErrs_eq {T : Type} [PanicArg T] (rs : List (Result T)) :
    AllOfCollectErrs rs
      = if (failuresOf rs).length > 0 then .ret (Err (errors.Join (failuresOf rs)))
        else .ret (Ok ((rs.filter (fun r => r.IsOk)).map (fun r => r.value))) := by
  simp only [AllOfCollectErrs, AllOfCollectErrs_loop_eq, bind, Outcome.bind, pure,
    List.nil_append]

theorem failuresOf_eq_nil_of_all_ok {T : Type} (rs : List (Result T))
    (h : ∀ r ∈ rs, r.IsOk = true) : failuresOf rs = [] := by
  simp only [failuresOf, List.map_eq_nil_iff, List.filter_eq_nil_iff]
  intro r hr
  have := h r hr
  simp [Result.IsOk, Result.IsErr] at *
  exact this

theorem mem_failuresOf {T : Type} (rs : List (Result T)) (r : Result T) (hr : r ∈ rs)
    (herr : r.IsErr = true) : r.err ∈ failuresOf rs := by
  simp only [failuresOf, List.mem_map, List.mem_filter]
  exact ⟨r, ⟨hr, herr⟩, rfl⟩

/-- C6. `AllOfCollectErrs` does not short-circuit.
(1) When no input failed it returns `Ok` of the stored values in input order.
(2) When at least one input failed it returns `Err` of `errors.Join` of the
failures of all failing inputs, in input order.
(3) When a failing input carries a (non-nil) failure, the returned Result is an
Err whose failure is the join error holding the failures of the failing inputs
in input order: the failure of every failing input is in it, and the stored
value is the empty list, no success value is returned.
(4) The example: of four inputs failing at indices 1 and 3, the join error holds
exactly the two failures and the two successes are dropped. -/
theorem AllOfCollectErrs_collects_all {T : Type} [PanicArg T] [Inhabited T]
    (rs : List (Result T)) :
    ((∀ r ∈ rs, r.IsOk = true) →
        AllOfCollectErrs rs = .ret (Ok (rs.map (fun r => r.value))))
    ∧ ((∃ r ∈ rs, r.IsErr = true) →
        AllOfCollectErrs rs = .ret (Err (errors.Join (failuresOf rs))))
    ∧ ((∃ r ∈ rs, r.IsErr = true ∧ r.err ≠ none) →
        AllOfCollectErrs rs
            = .ret { value := [], ok := false,
                     err := some (ErrorValue.joinError ((failuresOf rs).filterMap id)) }
          ∧ ∀ r ∈ rs, r.IsErr = true → ∀ e, r.err = some e →
              e ∈ (failuresOf rs).filterMap id)
    ∧ (∀ (v0 v2 : T) (e1 e3 : ErrorValue),
        AllOfCollectErrs [Ok v0, Err (some e1), Ok v2, Err (some e3)]
          = .ret { value := [], ok := false,
                   err := some (ErrorValue.joinError [e1, e3]) }) := by
  refine ⟨?_, ?_, ?_, ?_⟩
  · intro h
    have hf := failuresOf_eq_nil_of_all_ok rs h
    have hfilter : rs.filter (fun r => r.IsOk) = rs :=
      List.filter_eq_self.mpr (fun r hr => h r hr)
    simp [AllOfCollectErrs_eq, hf, hfilter]
  · rintro ⟨r, hr, herr⟩
    have hmem := mem_failuresOf rs r hr herr
    have hpos : (failuresOf rs).length > 0 := List.length_pos_of_mem hmem
    simp [AllOfCollectErrs_eq, hpos]
  · rintro ⟨r, hr, herr, hne⟩
    have hmem := mem_failuresOf rs r hr herr
    have hpos : (failuresOf rs).length > 0 := List.length_pos_of_mem hmem
    obtain ⟨e, he⟩ := Option.ne_none_iff_exists.mp hne
    have hin : e ∈ (failuresOf rs).filterMap id := by
      rw [List.mem_filterMap]
      exact ⟨r.err, hmem, by simp [← he]⟩
    have hnil : (failuresOf rs).filterMap id ≠ [] := List.ne_nil_of_mem hin
    refine ⟨?_, ?_⟩
    · simp [AllOfCollectErrs_eq, hpos, Join_of_some_non_nil _ hnil, Err]
      rfl
    · intro r1 hr1 herr1 e1 he1
      rw [List.mem_filterMap]
      exact ⟨r1.err, mem_failuresOf rs r1 hr1 herr1, by simp [he1]⟩
  · intro v0 v2 e1 e3
    rfl

/-- Two successes, and four inputs failing at indices 1 and 3. -/
theorem AllOfCollectErrs_collects_all_witness :
    AllOfCollectErrs [Ok 1, Ok 2] = .ret (Ok [1, 2])
    ∧ AllOfCollectErrs [Ok 1, Err (some (.foreign "E")), Ok 3, Err (some (.foreign "F"))]
        = .ret { value := [], ok := false,
                 err := some (ErrorValue.joinError [.foreign "E", .foreign "F"]) } :=
  ⟨(AllOfCollectErrs_collects_all [Ok 1, Ok 2]).1 (by simp [Result.IsOk, Ok]),
   ((AllOfCollectErrs_collects_all
      [Ok 1, Err (some (.foreign "E")), Ok 3, Err (some (.foreign "F"))]).2.2.1
      ⟨Err (some (.foreign "E")), by simp, rfl, by simp [Err]⟩).1⟩

theorem FirstOk_loop_of_first_ok {T : Type} [PanicArg T] [Inhabited T] (rs : List (Result T))
    (errs : List error) (k : Nat) (hk : k < rs.length)
    (hpre : ∀ r ∈ rs.take k, r.IsErr = true) (hok : rs[k].IsOk = true) :
    FirstOk.loop errs rs = .ret rs[k] := by
  induction rs generalizing errs k with
  | nil => simp at hk
  | cons r rest ih =>
    cases k with
    | zero =>
      have hr : r.IsOk = true := by simpa using hok
      simp [FirstOk.loop, hr, pure]
    | succ j =>
      have hr : r.ok = false := by
        simpa [Result.IsErr] using hpre r (by simp)
      have hrest := ih (errs ++ [r.err]) j (by simpa using hk)
        (fun x hx => hpre x (by simp [hx])) (by simpa using hok)
      simpa [FirstOk.loop, Result.IsOk, Result.UnwrapErr, hr, bind, Outcome.bind]
        using hrest

theorem FirstOk_loop_of_all_err {T : Type} [PanicArg T] [Inhabited T] (rs : List (Result T))
    (errs : List error) (h : ∀ r ∈ rs, r.IsErr = true) :
    FirstOk.loop errs rs = .ret (Err (errors.Join (errs ++ rs.map (fun r => r.err)))) := by
  induction rs generalizing errs with
  | nil => simp [FirstOk.loop, pure]
  | cons r rest ih =>
    have hr : r.ok = false := by
      simpa [Result.IsErr] using h r (List.mem_cons_self _ _)
    have hrest := ih (errs ++ [r.err]) (fun x hx => h x (List.mem_cons_of_mem _ hx))
    simp [FirstOk.loop, Result.IsOk, Result.UnwrapErr, hr, bind, Outcome.bind, hrest]

/-- C7. `FirstOk`:
(1) without inputs it returns `Err(ErrNoResults)`, a failing Result;
(2) when the inputs before index k fail and input k is Ok, it returns input k
itself, unchanged;
(3) when the list is not empty and every input fails, it returns `Err` of
`errors.Join` of the failures of all inputs in input order;
(4) on inputs `Err(e1), ..., Err(en)` with n > 0 that is the failing Result whose
failure is the join error holding e1, ..., en in this order. -/
theorem FirstOk_cases {T : Type} [PanicArg T] [Inhabited T] (rs : List (Result T)) :
    (FirstOk ([] : List (Result T)) = .ret (Err (some ErrNoResults))
      ∧ (Err (some ErrNoResults) : Result T).IsErr = true)
    ∧ (∀ (k : Nat) (hk : k < rs.length), (∀ r ∈ rs.take k, r.IsErr = true) →
        rs[k].IsOk = true → FirstOk rs = .ret rs[k])
    ∧ (rs ≠ [] → (∀ r ∈ rs, r.IsErr = true) →
        FirstOk rs = .ret (Err (errors.Join (rs.map (fun r => r.err)))))
    ∧ (∀ es : List ErrorValue, es ≠ [] →
        FirstOk (es.map (fun e => (Err (some e) : Result T)))
          = .ret { value := default, err := some (ErrorValue.joinError es), ok := false }) := by
  refine ⟨⟨rfl, rfl⟩, ?_, ?_, ?_⟩
  · intro k hk hpre hok
    have hne : rs.length ≠ 0 := by omega
    simp only [FirstOk, hne, if_false]
    exact FirstOk_loop_of_first_ok rs [] k hk hpre hok
  · intro hne hall
    have hlen : rs.length ≠ 0 := by simpa using hne
    simp only [FirstOk, hlen, if_false]
    simpa using FirstOk_loop_of_all_err rs [] hall
  · intro es hne
    have hlen : (es.map (fun e => (Err (some e) : Result T))).length ≠ 0 := by
      simpa using hne
    have hall : ∀ r ∈ es.map (fun e => (Err (some e) : Result T)), r.IsErr = true := by
      intro r hr
      obtain ⟨e, _, rfl⟩ := List.mem_map.mp hr
      rfl
    have hmap : (es.map (fun e => (Err (some e) : Result T))).map (fun r => r.err)
        = es.map some := by
      simp [Function.comp_def, Err]
    have hfm : (es.map some).filterMap id = es := by
      simp [List.filterMap_map]
    have hjoin : errors.Join (es.map some) = some (ErrorValue.joinError es) := by
      rw [Join_of_some_non_nil _ (by rw [hfm]; exact hne), hfm]
    simp only [FirstOk, hlen, if_false]
    rw [FirstOk_loop_of_all_err _ [] hall, List.nil_append, hmap, hjoin]
    rfl

/-- A failure followed by two successes, and two failures. -/
theorem FirstOk_cases_witness :
    FirstOk [Err (some (.foreign "E")), Ok 2, Ok 3] = .ret (Ok 2)
    ∧ FirstOk [(Err (some (.foreign "E")) : Result Nat), Err (some (.foreign "F"))]
        = .ret { value := 0, ok := false,
                 err := some (ErrorValue.joinError [.foreign "E", .foreign "F"]) } :=
  ⟨(FirstOk_cases [Err (some (.foreign "E")), Ok 2, Ok 3]).2.1 1 (by decide)
      (by simp [Result.IsErr, Err]) rfl,
   (FirstOk_cases ([] : List (Result Nat))).2.2.2 [.foreign "E", .foreign "F"] (by simp)⟩

end result

/-! ## Constructors and extraction of `Result` -/

/-- C8. `Err` with the nil failure degrades to success: `Err[T](nil)` is
`Ok` of T's zero value, its `IsOk` is true and `Unwrap` returns the zero value;
for every non-nil failure e, `Err[T](e)` has `IsErr` true and `UnwrapErr`
returns e. -/
theorem Err_nil_is_Ok_zero {T : Type} [PanicArg T] [Inhabited T] :
    (Err none : Result T) = Ok default
    ∧ (Err none : Result T).IsOk = true
    ∧ (Err none : Result T).Unwrap = .ret default
    ∧ ∀ e : ErrorValue,
        (Err (some e) : Result T).IsErr = true
        ∧ (Err (some e) : Result T).UnwrapErr = .ret (some e) :=
  ⟨rfl, rfl, rfl, fun _ => ⟨rfl, rfl⟩⟩

/-- C9, as stated, fails at the nil failure: `Err[int](nil).UnwrapOr(5)` is 0, the
zero value, and not the default 5. -/
theorem UnwrapOr_Err_nil_ignores_default :
    (Err none : Result Nat).UnwrapOr 5 = 0 ∧ (Err none : Result Nat).UnwrapOr 5 ≠ 5 :=
  ⟨rfl, by decide⟩

/-- C9, amended. For every value v and default d, `Ok(v).UnwrapOr(d) == v`; for
every non-nil failure e, `Err(e).UnwrapOr(d) == d`, while for the nil failure
`Err(nil).UnwrapOr(d)` is T's zero value; and of `r.IsOk()`, `r.IsErr()` exactly
one holds for every Result r. -/
theorem UnwrapOr_cases {T : Type} [Inhabited T] :
    (∀ v d : T, (Ok v).UnwrapOr d = v)
    ∧ (∀ (e : ErrorValue) (d : T), (Err (some e) : Result T).UnwrapOr d = d)
    ∧ (∀ d : T, (Err none : Result T).UnwrapOr d = default)
    ∧ (∀ r : Result T, (r.IsOk = true ∧ r.IsErr = false) ∨ (r.IsOk = false ∧ r.IsErr = true)) := by
  refine ⟨fun _ _ => rfl, fun _ _ => rfl, fun _ => rfl, ?_⟩
  intro r
  cases h : r.ok <;> simp [Result.IsOk, Result.IsErr, h]

/-! ## `result.Map` -/

namespace result

/-- C10, as stated, fails at the zero value of the struct `Result[int]` (`IsErr`
with a nil failure), with `f` the identity and `g` the successor: mapping twice
gives `Ok(1)`, mapping the composition gives `Ok(0)`. -/
theorem Map_functor_law_fails_at_zero_value :
    (Map (default : Result Nat) sampleIdentity >>= fun y => Map y sampleSuccessor) ()
      = (.ret (Ok 1), ())
    ∧ Map (default : Result Nat) (Go.comp sampleSuccessor sampleIdentity) ()
      = (.ret (Ok 0), ())
    ∧ (Map (default : Result Nat) sampleIdentity >>= fun y => Map y sampleSuccessor)
      ≠ Map (default : Result Nat) (Go.comp sampleSuccessor sampleIdentity) := by
  have h1 : (Map (default : Result Nat) sampleIdentity
      >>= fun y => Map y sampleSuccessor) () = (.ret (Ok 1), ()) := rfl
  have h2 : Map (default : Result Nat) (Go.comp sampleSuccessor sampleIdentity) ()
      = (.ret (Ok 0), ()) := rfl
  refine ⟨h1, h2, ?_⟩
  intro h
  have h3 := congrFun h ()
  rw [h1, h2] at h3
  have h4 := congrArg (fun w => match w.1 with
    | Outcome.ret r => r.value
    | Outcome.panic _ => 0) h3
  simp [Ok] at h4

/-- C10, amended. Functor law for Result: for every Result x that does not fail
with a nil failure (every Result the constructors build), and all functions f
and g, `Map(Map(x, f), g) == Map(x, g∘f)`: the same Result or the same panic, in
the same world. -/
theorem Map_functor_law {σ T U V : Type} [PanicArg T] [PanicArg U] [Inhabited U]
    [Inhabited V]
    (x : Result T) (f : T → Go σ U) (g : U → Go σ V)
    (hx : x.IsErr = true → x.err ≠ none) :
    (Map x f >>= fun y => Map y g) = Map x (Go.comp g f) := by
  funext s
  cases hok : x.ok with
  | true =>
    rcases hf : f x.value s with ⟨o, s1⟩
    cases o with
    | ret u =>
      rcases hg : g u s1 with ⟨o2, s2⟩
      cases o2 <;>
        simp [Map, Result.IsErr, Result.Unwrap, hok, bind, Go.bind, Go.lift, pure, hf, hg,
          Ok, Go.comp]
    | panic p =>
      simp [Map, Result.IsErr, Result.Unwrap, hok, bind, Go.bind, Go.lift, pure, hf,
        Go.comp]
  | false =>
    have hne : x.err ≠ none := hx (by simp [Result.IsErr, hok])
    obtain ⟨e, he⟩ := Option.ne_none_iff_exists.mp hne
    simp [Map, Result.IsErr, Result.UnwrapErr, hok, bind, Go.bind, Go.lift, pure, ← he,
      Err]

/-- The law at `Ok(3)`. -/
theorem Map_functor_law_witness :
    (Map (Ok 3) sampleIdentity >>= fun y => Map y sampleSuccessor)
      = Map (Ok 3) (Go.comp sampleSuccessor sampleIdentity) :=
  Map_functor_law (Ok 3) sampleIdentity sampleSuccessor (fun h => absurd h (by decide))

end result

/-! ## `option.Map`, `Transpose`, `Option.Xor` -/

namespace option

/-- C11. Functor law for Option: for every Option x and all functions f and g,
`Map(Map(x, f), g) == Map(x, g∘f)`: the same Option or the same panic, in the
same world. -/
theorem Option_functor_law {σ T U V : Type} [Inhabited U] [Inhabited V]
    (x : Option T) (f : T → Go σ U) (g : U → Go σ V) :
    (Map x f >>= fun y => Map y g) = Map x (Go.comp g f) := by
  funext s
  cases hok : x.ok with
  | true =>
    rcases hf : f x.value s with ⟨o, s1⟩
    cases o with
    | ret u =>
      rcases hg : g u s1 with ⟨o2, s2⟩
      cases o2 <;>
        simp [Map, Option.IsNone, Option.Unwrap, hok, bind, Go.bind, Go.lift, pure, hf, hg,
          Some, Go.comp]
    | panic p =>
      simp [Map, Option.IsNone, Option.Unwrap, hok, bind, Go.bind, Go.lift, pure, hf,
        Go.comp]
  | false =>
    simp [Map, Option.IsNone, hok, bind, Go.bind, pure, None]

end option

/-- C12, as stated, fails at the nil failure: `Err[int](nil)` is `Ok(0)`, so
`Transpose(Some(Err[int](nil)))` is `Ok(Some(0))`, while `Err[Option[int]](nil)`
is `Ok(None)`. -/
theorem Transpose_Some_Err_nil :
    Transpose (Some (Err none : Result Nat)) = Ok (Some 0)
    ∧ (Err none : Result (Option Nat)) = Ok None
    ∧ Transpose (Some (Err none : Result Nat)) ≠ Err none := by
  refine ⟨rfl, rfl, ?_⟩
  intro h
  have h1 := congrArg (fun r => r.value.ok) h
  simp [Transpose, Some, Err, Ok] at h1

/-- C12, amended. `Transpose(None) == Ok(None)`; for every v,
`Transpose(Some(Ok(v))) == Ok(Some(v))`; for every non-nil failure E,
`Transpose(Some(Err(E))) == Err(E)`, a failing Result; for the nil failure,
`Transpose(Some(Err(nil)))` is `Ok(Some(zero))`. -/
theorem Transpose_cases {T : Type} [Inhabited T] :
    Transpose (None : Option (Result T)) = Ok None
    ∧ (∀ v : T, Transpose (Some (Ok v)) = Ok (Some v))
    ∧ (∀ E : ErrorValue,
        Transpose (Some (Err (some E) : Result T)) = Err (some E)
        ∧ (Err (some E) : Result (Option T)).IsErr = true)
    ∧ Transpose (Some (Err none : Result T)) = Ok (Some default) :=
  ⟨rfl, fun _ => rfl, fun _ => ⟨rfl, rfl⟩, rfl⟩

/-- C17. `Option.Xor`: `a.Xor(b)` is present iff exactly one of a, b is present,
and then it is that operand; it is `None` when both or neither are present; the
three examples of the spec; and `IsSome` of the result does not depend on the
order of a and b. -/
theorem Option_Xor_cases {T : Type} [Inhabited T] (a b : Option T) :
    ((a.Xor b).IsSome = true ↔
        (a.IsSome = true ∧ b.IsSome = false) ∨ (a.IsSome = false ∧ b.IsSome = true))
    ∧ (a.IsSome = true → b.IsSome = false → a.Xor b = a)
    ∧ (a.IsSome = false → b.IsSome = true → a.Xor b = b)
    ∧ (a.IsSome = b.IsSome → a.Xor b = None)
    ∧ (∀ v : T, (Some v).Xor None = Some v)
    ∧ (∀ v w : T, (Some v).Xor (Some w) = None)
    ∧ (None : Option T).Xor None = None
    ∧ (a.Xor b).IsSome = (b.Xor a).IsSome := by
  refine ⟨?_, ?_, ?_, ?_, fun _ => rfl, fun _ _ => rfl, rfl, ?_⟩
  · cases ha : a.ok <;> cases hb : b.ok <;>
      simp [Option.Xor, Option.IsSome, ha, hb, None]
  · intro ha hb
    simp only [Option.IsSome] at ha hb
    simp [Option.Xor, ha, hb]
  · intro ha hb
    simp only [Option.IsSome] at ha hb
    simp [Option.Xor, ha, hb]
  · intro hab
    simp only [Option.IsSome] at hab
    cases hb : b.ok <;> simp [Option.Xor, hab, hb]
  · cases ha : a.ok <;> cases hb : b.ok <;>
      simp [Option.Xor, Option.IsSome, ha, hb, None]

/-- The three examples on `int`, and a present operand next to an absent one. -/
theorem Option_Xor_cases_witness :
    (Some 1).Xor (None : Option Nat) = Some 1
    ∧ (None : Option Nat).Xor (Some 2) = Some 2
    ∧ (Some 1).Xor (Some 2) = None :=
  ⟨(Option_Xor_cases (Some 1) (None : Option Nat)).2.1 rfl rfl,
   (Option_Xor_cases (None : Option Nat) (Some 2)).2.2.1 rfl rfl,
   (Option_Xor_cases (Some 1) (Some 2)).2.2.2.1 rfl⟩

/-! ## Bridging `Either` and the (value, error) pair -/

namespace either

/-- C13. The bridge keeps Left = success, Right = failure. For every flag
`isOk`, value v and error err: `FromResult(isOk, v, err)` is `Left(v)` when err
is nil and `Right(err)` when it is not; `ToResult(Left(v))` is `(v, nil)` and
`ToResult(Right(e))` is `(zero, e)`; hence `ToResult(FromResult(isOk, v, err))`
is `(v, nil)` for a nil err and `(zero, err)` otherwise. `LeftOr` is `ToResult`. -/
theorem FromResult_ToResult_bridge {T : Type} [Inhabited T] :
    (∀ (isOk : Bool) (v : T), FromResult isOk v none = Left v)
    ∧ (∀ (isOk : Bool) (v : T) (e : ErrorValue),
        FromResult isOk v (some e) = Right (some e))
    ∧ (∀ v : T, ToResult (Left v) = (v, none))
    ∧ (∀ e : error, ToResult (Right e : Either T error) = (default, e))
    ∧ (∀ (isOk : Bool) (v : T), ToResult (FromResult isOk v none) = (v, none))
    ∧ (∀ (isOk : Bool) (v : T) (e : ErrorValue),
        ToResult (FromResult isOk v (some e)) = (default, some e))
    ∧ (∀ e : Either T error, LeftOr e = ToResult e) :=
  ⟨fun _ _ => rfl, fun _ _ _ => rfl, fun _ => rfl, fun _ => rfl, fun _ _ => rfl,
   fun _ _ _ => rfl, fun _ => rfl⟩

end either

/-! ## Wrong-tag extraction inside `Try` -/

/-- C14, as stated, fails for `UnwrapErr` on an Ok of type `Result[any]` whose
stored value is a `resultPanic` that the caller recovered outside `Try`:
`panic(r.value)` raises that very value, the type assertion of `Try` succeeds,
and `Try` returns the failing Result `Err(E)`. -/
theorem Try_UnwrapErr_on_recovered_sentinel :
    sampleRecovered = Any.resultPanic (some (.foreign "E"))
    ∧ (Ok sampleRecovered).IsOk = true
    ∧ Try (Go.lift (Ok sampleRecovered).UnwrapErr) 0
        = (.ret (Err (some (.foreign "E"))), 0)
    ∧ (Err (some (.foreign "E")) : Result error).IsErr = true
    ∧ ¬ (∃ p : PanicValue, Try (Go.lift (Ok sampleRecovered).UnwrapErr) 0 = (.panic p, 0)) := by
  have h : Try (Go.lift (Ok sampleRecovered).UnwrapErr) 0
      = (.ret (Err (some (.foreign "E"))), 0) := rfl
  refine ⟨rfl, rfl, h, rfl, ?_⟩
  rintro ⟨p, hp⟩
  rw [h] at hp
  cases hp

/-- C14, amended. Wrong-tag extraction is a plain fault. Inside `Try`,
`UnwrapLeft` on a Right, `UnwrapRight` on a Left and `Option.Unwrap` on a None
end `Try` with the string panic the extraction raised; `Result.UnwrapErr` on an
Ok ends `Try` with the panic `panic(r.value)` raised, provided that the stored
value is not a `resultPanic` held in an interface: the panic value is not the
sentinel and no Result is returned. When the stored value is a `resultPanic`
with failure E, `Try` returns `Err(E)`. `Result.Unwrap` on a failing Result with
failure E is intercepted: `Try` returns `Err(E)`; so it is for
`Err(E).Unwrap()`. -/
theorem Try_wrong_tag_extraction {σ L R T : Type} [Inhabited L] [Inhabited R]
    [PanicArg T] [Inhabited T] (s : σ) :
    (∀ e : either.Either L R, e.IsRight = true →
        Try (Go.lift e.UnwrapLeft) s
          = (.panic (.other String "either.UnwrapLeft: called on Right"), s))
    ∧ (∀ e : either.Either L R, e.IsLeft = true →
        Try (Go.lift e.UnwrapRight) s
          = (.panic (.other String "either.UnwrapRight: called on Left"), s))
    ∧ (∀ o : Option T, o.IsNone = true →
        Try (Go.lift o.Unwrap) s
          = (.panic (.other String "option.Unwrap() called on None"), s))
    ∧ (∀ r : Result T, r.IsOk = true →
        (PanicArg.toPanic r.value).asResultPanic = none →
        Try (Go.lift r.UnwrapErr) s = (.panic (PanicArg.toPanic r.value), s))
    ∧ (∀ (r : Result T) (E : error), r.IsOk = true →
        PanicArg.toPanic r.value = PanicValue.resultPanic E →
        Try (Go.lift r.UnwrapErr) s = (.ret (Err E), s))
    ∧ (∀ r : Result T, r.IsErr = true →
        Try (Go.lift r.Unwrap) s = (.ret (Err r.err), s))
    ∧ (∀ E : error, Try (Go.lift (Err E : Result T).Unwrap) s = (.ret (Err E), s)) := by
  refine ⟨?_, ?_, ?_, ?_, ?_, ?_, ?_⟩
  · intro e he
    have h : e.isLeft = false := by simpa [either.Either.IsRight] using he
    simp [Try, Go.lift, either.Either.UnwrapLeft, h, PanicValue.asResultPanic]
  · intro e he
    have h : e.isLeft = true := by simpa [either.Either.IsLeft] using he
    simp [Try, Go.lift, either.Either.UnwrapRight, h, PanicValue.asResultPanic]
  · intro o ho
    have h : o.ok = false := by simpa [Option.IsNone] using ho
    simp [Try, Go.lift, Option.Unwrap, h, PanicValue.asResultPanic]
  · intro r hr hp
    have h : r.ok = true := by simpa [Result.IsOk] using hr
    simp [Try, Go.lift, Result.UnwrapErr, h, hp]
  · intro r E hr hp
    have h : r.ok = true := by simpa [Result.IsOk] using hr
    simp [Try, Go.lift, Result.UnwrapErr, h, hp, PanicValue.asResultPanic]
  · intro r hr
    have h : r.ok = false := by simpa [Result.IsErr] using hr
    simp [Try, Go.lift, Result.Unwrap, h, PanicValue.asResultPanic]
  · intro E
    cases E <;> rfl

/-- The extractions on concrete values, in a world that stays 0: on `Ok(7)` of
type `Result[int]` the panic value is 7, on `Ok(nil)` of type `Result[any]` it is
a `PanicNilError`, on `Ok` of a value of another dynamic type it is that value. -/
theorem Try_wrong_tag_extraction_witness :
    Try (Go.lift (either.Right 7 : either.Either Nat Nat).UnwrapLeft) 0
        = (.panic (.other String "either.UnwrapLeft: called on Right"), 0)
    ∧ Try (Go.lift (either.Left 7 : either.Either Nat Nat).UnwrapRight) 0
        = (.panic (.other String "either.UnwrapRight: called on Left"), 0)
    ∧ Try (Go.lift (None : Option Nat).Unwrap) 0
        = (.panic (.other String "option.Unwrap() called on None"), 0)
    ∧ Try (Go.lift (Ok 7).UnwrapErr) 0 = (.panic (.other Nat 7), 0)
    ∧ Try (Go.lift (Ok Any.nil).UnwrapErr) 0
        = (.panic (.other runtime.PanicNilError {}), 0)
    ∧ Try (Go.lift (Ok (Any.other "x")).UnwrapErr) 0
        = (.panic (.other Any (Any.other "x")), 0)
    ∧ Try (Go.lift (Err (some (.foreign "E")) : Result Nat).Unwrap) 0
        = (.ret (Err (some (.foreign "E"))), 0) :=
  ⟨(@Try_wrong_tag_extraction Nat Nat Nat Nat _ _ _ _ 0).1 (either.Right 7) rfl,
   (@Try_wrong_tag_extraction Nat Nat Nat Nat _ _ _ _ 0).2.1 (either.Left 7) rfl,
   (@Try_wrong_tag_extraction Nat Nat Nat Nat _ _ _ _ 0).2.2.1 None rfl,
   (@Try_wrong_tag_extraction Nat Nat Nat Nat _ _ _ _ 0).2.2.2.1 (Ok 7) rfl rfl,
   (@Try_wrong_tag_extraction Nat Nat Nat Any _ _ _ _ 0).2.2.2.1 (Ok Any.nil) rfl rfl,
   (@Try_wrong_tag_extraction Nat Nat Nat Any _ _ _ _ 0).2.2.2.1 (Ok (Any.other "x")) rfl rfl,
   (@Try_wrong_tag_extraction Nat Nat Nat Nat _ _ _ _ 0).2.2.2.2.2.1
      (Err (some (.foreign "E"))) rfl⟩

/-! ## `result.Partition`, `result.MapAll`, `result.MapAllOk` -/

namespace result

theorem Partition_loop_eq {T : Type} [PanicArg T] (rs : List (Result T)) (values : List T)
    (errs : List error) :
    Partition.loop values errs rs = .ret (values ++ valuesOf rs, errs ++ failuresOf rs) := by
  induction rs generalizing values errs with
  | nil => simp [Partition.loop, valuesOf, failuresOf, pure]
  | cons r rest ih =>
    cases hr : r.ok with
    | true =>
      simp [Partition.loop, Result.IsErr, Result.IsOk, Result.Unwrap, hr, bind,
        Outcome.bind, ih, failuresOf, valuesOf]
    | false =>
      simp [Partition.loop, Result.IsErr, Result.IsOk, Result.UnwrapErr, hr, bind,
        Outcome.bind, ih, failuresOf, valuesOf]

theorem valuesOf_length_add_failuresOf_length {T : Type} (rs : List (Result T)) :
    (valuesOf rs).length + (failuresOf rs).length = rs.length := by
  induction rs with
  | nil => rfl
  | cons r rest ih =>
    cases hr : r.ok <;>
      simp [valuesOf, failuresOf, List.filter, Result.IsOk, Result.IsErr, hr] at ih ⊢ <;>
      omega

/-- C15. `result.Partition` returns, for every input list, the stored values of
the Ok inputs in input order and the failures of the failing inputs in input
order; the two lengths add up to the number of inputs. It splits `[Ok(v0),
Err(e1), Ok(v2), Err(e3)]` into `[v0, v2]` and `[e1, e3]`. -/
theorem Partition_splits_in_order {T : Type} [PanicArg T] [Inhabited T]
    (rs : List (Result T)) :
    Partition rs = .ret (valuesOf rs, failuresOf rs)
    ∧ (valuesOf rs).length + (failuresOf rs).length = rs.length
    ∧ valuesOf rs = (rs.filter (fun r => r.IsOk)).map (fun r => r.value)
    ∧ failuresOf rs = (rs.filter (fun r => r.IsErr)).map (fun r => r.err)
    ∧ (∀ (v0 v2 : T) (e1 e3 : ErrorValue),
        Partition [Ok v0, Err (some e1), Ok v2, Err (some e3)]
          = .ret ([v0, v2], [some e1, some e3])) := by
  refine ⟨?_, valuesOf_length_add_failuresOf_length rs, rfl, rfl, fun _ _ _ _ => rfl⟩
  simpa [Partition] using Partition_loop_eq rs [] []

theorem Go_bind_pure {σ α : Type} (m : Go σ α) : (m >>= fun a => pure a) = m := by
  funext s
  simp only [bind, Go.bind, pure]
  rcases h : m s with ⟨o, s1⟩
  cases o <;> rfl

theorem set_length_append {α : Type} (pre post : List α) (p r : α) :
    (pre ++ p :: post).set pre.length r = pre ++ r :: post := by
  induction pre with
  | nil => rfl
  | cons a pre ih => simp [ih]

theorem MapAll_loop_eq {σ T U : Type} (f : T → Go σ (Result U)) (xs : List T)
    (pre post : List (Result U)) (hlen : post.length = xs.length) :
    MapAll.loop f xs pre.length (pre ++ post)
      = (callEach f xs >>= fun rs => pure (pre ++ rs)) := by
  induction xs generalizing pre post with
  | nil =>
    have hpost : post = [] := List.length_eq_zero.mp (by simpa using hlen)
    subst hpost
    rfl
  | cons x xs ih =>
    cases post with
    | nil => simp at hlen
    | cons p post =>
      have hlen1 : post.length = xs.length := by simpa using hlen
      funext s
      simp only [MapAll.loop, callEach, bind, Go.bind, pure]
      rcases hf : f x s with ⟨o, s1⟩
      cases o with
      | panic q => rfl
      | ret r =>
        have hih := congrFun (ih (pre ++ [r]) post hlen1) s1
        simp only [List.length_append, List.length_singleton, List.append_assoc,
          List.singleton_append, bind, Go.bind, pure] at hih
        simp only [set_length_append, hih]
        rcases hc : callEach f xs s1 with ⟨o2, s2⟩
        cases o2 <;> rfl

theorem MapAll_eq_callEach {σ T U : Type} [Inhabited U] (xs : List T)
    (f : T → Go σ (Result U)) : MapAll xs f = callEach f xs := by
  have h := MapAll_loop_eq f xs [] (List.replicate xs.length default) (by simp)
  simp only [List.length_nil, List.nil_append] at h
  rw [MapAll, h]
  exact Go_bind_pure _

theorem callEach_of_effect_free {σ T U : Type} (f : T → Result U) (xs : List T) :
    callEach (fun x => (pure (f x) : Go σ (Result U))) xs = pure (xs.map f) := by
  induction xs with
  | nil => rfl
  | cons x xs ih =>
    funext s
    simp only [callEach, ih]
    rfl

theorem MapAllOk_of_effect_free {σ T U : Type} [PanicArg U] [Inhabited U] (f : T → Result U)
    (xs : List T) :
    MapAllOk xs (fun x => (pure (f x) : Go σ (Result U)))
      = Go.lift (AllOf (xs.map f)) := by
  rw [MapAllOk, MapAll_eq_callEach, callEach_of_effect_free]
  rfl

/-- C16. `MapAllOk` is `AllOf` over `MapAll`.
(1) `MapAll(xs, f)` calls `f` on the elements in input order and returns what the
calls returned, in the same order.
(2) For `f` without effect that is the list of the length of xs whose element i
is `f(xs[i])`.
(3) `MapAllOk(xs, f)` is `AllOf` of what `MapAll(xs, f)` returns.
(4) When every `f(xs[i])` is Ok, `MapAllOk` returns `Ok` of the stored values in
input order; (5) when `f` succeeds before index k and fails on `xs[k]`, it
returns `Err` of the failure of `f(xs[k])`; (6) for `f(x) = Ok(u(x))` it returns
`Ok([u(x1), ..., u(xn)])`. -/
theorem MapAllOk_is_AllOf_of_MapAll {σ T U : Type} [PanicArg U] [Inhabited U]
    (xs : List T) :
    (∀ f : T → Go σ (Result U), MapAll xs f = callEach f xs)
    ∧ (∀ f : T → Result U, ∃ out : List (Result U),
        MapAll xs (fun x => (pure (f x) : Go σ (Result U))) = pure out
        ∧ out = xs.map f ∧ out.length = xs.length
        ∧ ∀ (i : Nat) (hi : i < xs.length) (ho : i < out.length), out[i] = f xs[i])
    ∧ (∀ f : T → Go σ (Result U),
        MapAllOk xs f = (MapAll xs f >>= fun rs => Go.lift (AllOf rs)))
    ∧ (∀ f : T → Result U, (∀ x ∈ xs, (f x).IsOk = true) →
        MapAllOk xs (fun x => (pure (f x) : Go σ (Result U)))
          = pure (Ok (xs.map (fun x => (f x).value))))
    ∧ (∀ (f : T → Result U) (k : Nat) (hk : k < xs.length),
        (∀ x ∈ xs.take k, (f x).IsOk = true) → (f xs[k]).IsErr = true →
        MapAllOk xs (fun x => (pure (f x) : Go σ (Result U))) = pure (Err (f xs[k]).err))
    ∧ (∀ u : T → U,
        MapAllOk xs (fun x => (pure (Ok (u x)) : Go σ (Result U))) = pure (Ok (xs.map u))) := by
  refine ⟨fun f => MapAll_eq_callEach xs f, ?_, fun _ => rfl, ?_, ?_, ?_⟩
  · intro f
    refine ⟨xs.map f, ?_, rfl, by simp, ?_⟩
    · rw [MapAll_eq_callEach, callEach_of_effect_free]
    · intro i hi ho
      simp
  · intro f hall
    rw [MapAllOk_of_effect_free]
    have h := AllOf_loop_of_all_ok (xs.map f) [] (by
      intro r hr
      obtain ⟨x, hx, rfl⟩ := List.mem_map.mp hr
      exact hall x hx)
    simp only [List.nil_append, List.map_map] at h
    simp only [AllOf, h]
    rfl
  · intro f k hk hpre herr
    rw [MapAllOk_of_effect_free]
    have hk1 : k < (xs.map f).length := by simpa using hk
    have h := AllOf_loop_of_first_err (xs.map f) [] k hk1 (by
      intro r hr
      rw [← List.map_take] at hr
      obtain ⟨x, hx, rfl⟩ := List.mem_map.mp hr
      exact hpre x hx) (by simpa using herr)
    simp only [List.getElem_map] at h
    simp only [AllOf, h]
    rfl
  · intro u
    rw [MapAllOk_of_effect_free]
    have h := AllOf_loop_of_all_ok (xs.map (fun x => Ok (u x))) [] (by
      intro r hr
      obtain ⟨x, _, rfl⟩ := List.mem_map.mp hr
      rfl)
    simp only [List.nil_append, List.map_map] at h
    simp only [AllOf, h]
    rfl

/-- On `[1, 2, 3]`: `f` doubling into `Ok`, and `f` failing on 2 and on 3. -/
theorem MapAllOk_is_AllOf_of_MapAll_witness :
    MapAllOk [1, 2, 3] (fun x => (pure (Ok (2 * x)) : Go Unit (Result Nat)))
        = pure (Ok [2, 4, 6])
    ∧ MapAllOk [1, 2, 3]
        (fun x => (pure (if x = 1 then Ok x else Err (some (.joinError (List.replicate x (.foreign "E")))))
          : Go Unit (Result Nat)))
        = pure (Err (some (.joinError [.foreign "E", .foreign "E"]))) :=
  ⟨(MapAllOk_is_AllOf_of_MapAll [1, 2, 3]).2.2.2.1 (fun x => Ok (2 * x))
      (fun _ _ => rfl),
   (MapAllOk_is_AllOf_of_MapAll [1, 2, 3]).2.2.2.2.1
      (fun x => if x = 1 then Ok x else Err (some (.joinError (List.replicate x (.foreign "E")))))
      1 (by decide) (by simp [Result.IsOk, Ok]) (by simp [Result.IsErr, Err])⟩

end result

/-! ## Nested guarded scopes -/

/-- C18. Nested guarded scopes. Let g be a computation in which `Unwrap` hits a
failing Result with failure E (after `pre` returned, in the world `pre` left).
(1) `Try(g)` returns `Err(E)`. (2) `Try(func(){ return Try(g) })` returns
`Ok(Err(E))`: the inner scope intercepts, the outer one completes normally.
(3) `Try(func(){ return Try(g).Unwrap() })` returns `Err(E)`. (4) More generally,
when an inner `Try(h)` has returned and the outer computation then calls
`Unwrap` on a failing Result with failure E2, the outer `Try` returns
`Err(E2)`. -/
theorem Try_nested_scopes {σ A B T X C : Type} [Inhabited T] [Inhabited X] [Inhabited C]
    (pre : Go σ A) (r : A → Result B) (rest : B → Go σ T) (s s1 : σ) (a : A)
    (hpre : pre s = (.ret a, s1)) (herr : (r a).IsErr = true) :
    Try (unwrapWithin pre r rest) s = (.ret (Err (r a).err), s1)
    ∧ Try (Try (unwrapWithin pre r rest)) s = (.ret (Ok (Err (r a).err)), s1)
    ∧ Try (Try (unwrapWithin pre r rest) >>= fun inner => Go.lift inner.Unwrap) s
        = (.ret (Err (r a).err), s1)
    ∧ (∀ (h : Go σ X) (r2 : Result X → Result C) (x : Result X) (s2 : σ),
        Try h s = (.ret x, s2) → (r2 x).IsErr = true →
        Try (Try h >>= fun y => Go.lift (r2 y).Unwrap) s = (.ret (Err (r2 x).err), s2)) := by
  have hok : (r a).ok = false := by simpa [Result.IsErr] using herr
  have h1 : Try (unwrapWithin pre r rest) s = (.ret (Err (r a).err), s1) := by
    simp [Try, unwrapWithin, bind, Go.bind, hpre, Go.lift, Result.Unwrap, hok,
      PanicValue.asResultPanic]
  refine ⟨h1, ?_, ?_, ?_⟩
  · simp only [Try] at h1
    simp only [Try, h1]
  · cases he : (r a).err with
    | none =>
      rw [he] at h1
      simp only [Try, bind, Go.bind] at h1 ⊢
      simp only [h1]
      rfl
    | some e =>
      rw [he] at h1
      simp only [Try, bind, Go.bind] at h1 ⊢
      simp only [h1]
      rfl
  · intro h r2 x s2 hx herr2
    have hok2 : (r2 x).ok = false := by simpa [Result.IsErr] using herr2
    have key : ∀ m : Go σ (Result X), m s = (.ret x, s2) →
        Try (m >>= fun y => Go.lift (r2 y).Unwrap) s = (.ret (Err (r2 x).err), s2) := by
      intro m hm
      simp [Try, bind, Go.bind, hm, Go.lift, Result.Unwrap, hok2, PanicValue.asResultPanic]
    exact key (Try h) hx

/-- The computation `sampleUnwrapFailure` (one tick, then `Unwrap` of `Err(E)`)
under one and under two scopes. -/
theorem Try_nested_scopes_witness :
    Try sampleUnwrapFailure 0 = (.ret (Err (some (.foreign "E"))), 1)
    ∧ Try (Try sampleUnwrapFailure) 0 = (.ret (Ok (Err (some (.foreign "E")))), 1)
    ∧ Try (Try sampleUnwrapFailure >>= fun inner => Go.lift inner.Unwrap) 0
        = (.ret (Err (some (.foreign "E"))), 1) :=
  have h := @Try_nested_scopes Nat Unit Nat Nat Nat Nat _ _ _ sampleTick
    (fun _ => (Err (some (.foreign "E")) : Result Nat)) pure 0 1 () rfl rfl
  ⟨h.1, h.2.1, h.2.2.1⟩

/-! ## `Unpack` and `Of` -/

/-- C19. `Unpack` mirrors the (value, error) convention and `Of` inverts it:
`Ok(v).Unpack()` is `(v, nil)`; for a non-nil failure e, `Err(e).Unpack()` is
`(zero, e)`; `Of(r.Unpack())` is r for every r built by `Ok` or by `Err` (the
nil failure included); and for a non-nil err, `Of(v, err).Unpack()` is
`(zero, err)`. -/
theorem Unpack_mirrors_Of {T : Type} [Inhabited T] :
    (∀ v : T, (Ok v).Unpack = (v, none))
    ∧ (∀ e : ErrorValue, (Err (some e) : Result T).Unpack = (default, some e))
    ∧ (∀ v : T, Of (Ok v).Unpack.1 (Ok v).Unpack.2 = Ok v)
    ∧ (∀ e : error, Of (Err e : Result T).Unpack.1 (Err e : Result T).Unpack.2 = Err e)
    ∧ (∀ (v : T) (e : ErrorValue), (Of v (some e)).Unpack = (default, some e)) := by
  refine ⟨fun _ => rfl, fun _ => rfl, fun _ => rfl, ?_, fun _ _ => rfl⟩
  intro e
  cases e <;> rfl

/-! ## The invariant of `Result` -/

theorem Ok_wellFormed {T : Type} [Inhabited T] (v : T) : (Ok v).WellFormed := by
  simp [Result.WellFormed, Ok, Result.IsOk, Result.IsErr, Result.IntoErr]

theorem Err_wellFormed {T : Type} [Inhabited T] (e : error) :
    (Err e : Result T).WellFormed := by
  cases e <;>
    simp [Result.WellFormed, Err, Result.IsOk, Result.IsErr, Result.IntoErr,
      Result.IntoOk]

theorem returnsOnly_pure {σ α : Type} (P : α → Prop) (v : α) (hv : P v) :
    Go.returnsOnly P (pure v : Go σ α) := by
  intro s r s1 h
  simp only [pure, Prod.mk.injEq, Outcome.ret.injEq] at h
  rw [← h.1]
  exact hv

/-- C20. The invariant of Result (`IsOk` implies a nil stored failure; `IsErr`
implies a non-nil stored failure and the zero value as stored value) holds for
every Result built by `Ok`, `Err`, `Of`, `Of2`, `Of3` and `Do`, and for every
Result that `MapErr`, `Or`, `OrElse`, `Option.OkOr`, `Transpose`, `result.Map`,
`result.FlatMap` and `Try` return, the Results they are given, and those the
function given to `OrElse` or `FlatMap` returns, having the invariant. -/
theorem Result_wellFormed_invariant (σ T U A B C : Type) [PanicArg T] [Inhabited T]
    [Inhabited U]
    [Inhabited A] [Inhabited B] [Inhabited C] :
    (∀ v : T, (Ok v).WellFormed)
    ∧ (∀ e : error, (Err e : Result T).WellFormed)
    ∧ (∀ (v : T) (e : error), (Of v e).WellFormed)
    ∧ (∀ (a : A) (b : B) (e : error), (Of2 a b e).WellFormed)
    ∧ (∀ (a : A) (b : B) (c : C) (e : error), (Of3 a b c e).WellFormed)
    ∧ (∀ e : error, (Do T e).WellFormed)
    ∧ (∀ (r : Result T) (f : error → Go σ error), r.WellFormed →
        Go.returnsOnly Result.WellFormed (r.MapErr f))
    ∧ (∀ r alternative : Result T, r.WellFormed → alternative.WellFormed →
        (r.Or alternative).WellFormed)
    ∧ (∀ (r : Result T) (f : error → Go σ (Result T)), r.WellFormed →
        (∀ e, Go.returnsOnly Result.WellFormed (f e)) →
        Go.returnsOnly Result.WellFormed (r.OrElse f))
    ∧ (∀ (o : Option T) (e : error), (o.OkOr e).WellFormed)
    ∧ (∀ o : Option (Result T), (Transpose o).WellFormed)
    ∧ (∀ (r : Result T) (f : T → Go σ U), Go.returnsOnly Result.WellFormed (result.Map r f))
    ∧ (∀ (r : Result T) (f : T → Go σ (Result U)),
        (∀ t, Go.returnsOnly Result.WellFormed (f t)) →
        Go.returnsOnly Result.WellFormed (result.FlatMap r f))
    ∧ (∀ f : Go σ T, Go.returnsOnly Result.WellFormed (Try f)) := by
  refine ⟨Ok_wellFormed, Err_wellFormed, ?_, ?_, ?_, ?_, ?_, ?_, ?_, ?_, ?_, ?_, ?_, ?_⟩
  · intro v e
    cases e <;>
      simp [Result.WellFormed, Of, Result.IsOk, Result.IsErr, Result.IntoErr,
        Result.IntoOk]
  · intro a b e
    cases e with
    | none => exact Ok_wellFormed ({ First := a, Second := b } : tuple.Pair A B)
    | some x => exact Err_wellFormed (some x)
  · intro a b c e
    cases e with
    | none =>
      exact Ok_wellFormed ({ First := a, Second := b, Third := c } : tuple.Triple A B C)
    | some x => exact Err_wellFormed (some x)
  · intro e
    cases e with
    | none => exact Ok_wellFormed (default : T)
    | some x => exact Err_wellFormed (some x)
  · intro r f hr s r1 s1 h
    cases hok : r.ok with
    | true =>
      simp [Result.MapErr, hok, pure] at h
      rw [← h.1]
      exact hr
    | false =>
      simp only [Result.MapErr, hok, Bool.not_false, if_true, bind, Go.bind, pure] at h
      rcases hf : f r.err s with ⟨o, s2⟩
      rw [hf] at h
      cases o with
      | ret e =>
        simp at h
        rw [← h.1]
        exact Err_wellFormed e
      | panic p => simp at h
  · intro r alternative hr ha
    cases hok : r.ok <;> simp [Result.Or, hok, hr, ha]
  · intro r f hr hf s r1 s1 h
    cases hok : r.ok with
    | true =>
      simp [Result.OrElse, hok, pure] at h
      rw [← h.1]
      exact hr
    | false =>
      simp only [Result.OrElse, hok, Bool.not_false, if_true] at h
      exact hf r.err s r1 s1 h
  · intro o e
    cases hok : o.ok with
    | true =>
      simp only [Option.OkOr, hok, if_true]
      exact Ok_wellFormed _
    | false =>
      simp only [Option.OkOr, hok, Bool.false_eq_true, if_false]
      exact Err_wellFormed _
  · intro o
    cases hok : o.ok with
    | false =>
      simp only [Transpose, hok, Bool.not_false, if_true]
      exact Ok_wellFormed _
    | true =>
      cases hin : o.value.ok with
      | false =>
        simp only [Transpose, hok, hin, Bool.not_true, Bool.not_false, Bool.false_eq_true,
          if_false, if_true]
        exact Err_wellFormed _
      | true =>
        simp only [Transpose, hok, hin, Bool.not_true, Bool.false_eq_true, if_false]
        exact Ok_wellFormed _
  · intro r f s r1 s1 h
    cases hok : r.ok with
    | true =>
      simp only [result.Map, Result.IsErr, hok, Bool.not_true, Bool.false_eq_true, if_false,
        bind, Go.bind, pure, Go.lift, Result.Unwrap] at h
      rcases hf : f r.value s with ⟨o, s2⟩
      rw [hf] at h
      cases o with
      | ret u =>
        simp at h
        rw [← h.1]
        exact Ok_wellFormed u
      | panic p => simp at h
    | false =>
      simp [result.Map, Result.IsErr, hok, bind, Go.bind, pure, Go.lift,
        Result.UnwrapErr] at h
      rw [← h.1]
      exact Err_wellFormed _
  · intro r f hf s r1 s1 h
    cases hok : r.ok with
    | true =>
      simp only [result.FlatMap, Result.IsErr, hok, Bool.not_true, Bool.false_eq_true,
        if_false, bind, Go.bind, Go.lift, Result.Unwrap] at h
      exact hf r.value s r1 s1 h
    | false =>
      simp [result.FlatMap, Result.IsErr, hok, bind, Go.bind, pure, Go.lift,
        Result.UnwrapErr] at h
      rw [← h.1]
      exact Err_wellFormed _
  · intro f s r1 s1 h
    simp only [Try] at h
    rcases hf : f s with ⟨o, s2⟩
    rw [hf] at h
    cases o with
    | ret v =>
      simp at h
      rw [← h.1]
      exact Ok_wellFormed v
    | panic p =>
      cases p with
      | resultPanic e =>
        simp [PanicValue.asResultPanic] at h
        rw [← h.1]
        exact Err_wellFormed e
      | other X x => simp [PanicValue.asResultPanic] at h

/-- The invariant at a failing Result sent through `MapErr` (with a function
returning nil, which gives `Ok(0)`), `Or`, `OrElse` and at `FlatMap` on `Ok(1)`;
the calls return. -/
theorem Result_wellFormed_invariant_witness :
    Go.returnsOnly Result.WellFormed
        ((Err (some (.foreign "E")) : Result Nat).MapErr (fun _ => (pure none : Go Unit error)))
    ∧ (Err (some (.foreign "E")) : Result Nat).MapErr (fun _ => (pure none : Go Unit error)) ()
        = (.ret (Ok 0), ())
    ∧ ((Err (some (.foreign "E")) : Result Nat).Or (Ok 1)).WellFormed
    ∧ Go.returnsOnly Result.WellFormed
        ((Err (some (.foreign "E")) : Result Nat).OrElse
          (fun e => (pure (Err e) : Go Unit (Result Nat))))
    ∧ Go.returnsOnly Result.WellFormed
        (result.FlatMap (Ok 1) (fun t => (pure (Ok (t + 1)) : Go Unit (Result Nat))))
    ∧ result.FlatMap (Ok 1) (fun t => (pure (Ok (t + 1)) : Go Unit (Result Nat))) ()
        = (.ret (Ok 2), ()) :=
  have h := Result_wellFormed_invariant Unit Nat Nat Nat Nat Nat
  ⟨h.2.2.2.2.2.2.1 (Err (some (.foreign "E"))) (fun _ => pure none) (Err_wellFormed _),
   rfl,
   h.2.2.2.2.2.2.2.1 (Err (some (.foreign "E"))) (Ok 1) (Err_wellFormed _) (Ok_wellFormed 1),
   h.2.2.2.2.2.2.2.2.1 (Err (some (.foreign "E"))) (fun e => pure (Err e)) (Err_wellFormed _)
     (fun e => returnsOnly_pure _ _ (Err_wellFormed e)),
   h.2.2.2.2.2.2.2.2.2.2.2.2.1 (Ok 1) (fun t => pure (Ok (t + 1)))
     (fun t => returnsOnly_pure _ _ (Ok_wellFormed (t + 1))),
   rfl⟩

/-! ## `Result.MapErr` -/

/-- C21. `MapErr` can turn a failure into a success.
(1) On a failing Result r with failure e, `r.MapErr(f)` calls `f(e)` once and
returns `Err` of what it returned.
(2) For `f` without effect: when `f(e)` is a non-nil failure e2 the result is the
failing Result with failure e2, when `f(e)` is nil it is `Ok` of the zero value;
so `IsErr` of the result holds iff `f(e)` is not nil.
(3) On an Ok Result r, `r.MapErr(f)` returns r in an unchanged world, whatever f
is: f is not called. -/
theorem MapErr_cases {σ T : Type} [Inhabited T] (r : Result T) :
    (r.IsErr = true → ∀ f : error → Go σ error,
        r.MapErr f = (f r.err >>= fun e => pure (Err e)))
    ∧ (r.IsErr = true → ∀ (f : error → error) (e2 : ErrorValue), f r.err = some e2 →
        r.MapErr (fun e => (pure (f e) : Go σ error))
            = pure { value := default, err := some e2, ok := false }
          ∧ (Err (f r.err) : Result T) = { value := default, err := some e2, ok := false })
    ∧ (r.IsErr = true → ∀ f : error → error, f r.err = none →
        r.MapErr (fun e => (pure (f e) : Go σ error)) = pure (Ok default))
    ∧ (r.IsErr = true → ∀ f : error → error, ∃ r2 : Result T,
        r.MapErr (fun e => (pure (f e) : Go σ error)) = pure r2
        ∧ r2 = Err (f r.err)
        ∧ (r2.IsErr = true ↔ f r.err ≠ none))
    ∧ (r.IsOk = true → ∀ f : error → Go σ error, r.MapErr f = pure r) := by
  refine ⟨?_, ?_, ?_, ?_, ?_⟩
  · intro herr f
    have hok : r.ok = false := by simpa [Result.IsErr] using herr
    simp [Result.MapErr, hok]
  · intro herr f e2 hf
    have hok : r.ok = false := by simpa [Result.IsErr] using herr
    refine ⟨?_, ?_⟩
    · simp only [Result.MapErr, hok, Bool.not_false, if_true, hf]
      rfl
    · rw [hf]
      rfl
  · intro herr f hf
    have hok : r.ok = false := by simpa [Result.IsErr] using herr
    simp only [Result.MapErr, hok, Bool.not_false, if_true, hf]
    rfl
  · intro herr f
    have hok : r.ok = false := by simpa [Result.IsErr] using herr
    refine ⟨Err (f r.err), ?_, rfl, ?_⟩
    · simp only [Result.MapErr, hok, Bool.not_false, if_true]
      rfl
    · cases hf : f r.err <;> simp [Err, Result.IsErr]
  · intro hisok f
    have hok : r.ok = true := by simpa [Result.IsOk] using hisok
    simp [Result.MapErr, hok]

/-- On `Err(E)` a callback returning nil gives `Ok(0)` and one returning a join
error gives that failure, each after one call; on `Ok(7)` the callback is not
called (the world stays 0). -/
theorem MapErr_cases_witness :
    (Err (some (.foreign "E")) : Result Nat).MapErr sampleToNil 0 = (.ret (Ok 0), 1)
    ∧ (Err (some (.foreign "E")) : Result Nat).MapErr sampleWrap 0
        = (.ret { value := 0, ok := false,
                  err := some (.joinError [.foreign "E", .foreign "context"]) }, 1)
    ∧ (Ok 7).MapErr sampleToNil 0 = (.ret (Ok 7), 0) :=
  ⟨congrFun ((MapErr_cases (Err (some (.foreign "E")) : Result Nat)).1 rfl sampleToNil) 0,
   congrFun ((MapErr_cases (Err (some (.foreign "E")) : Result Nat)).1 rfl sampleWrap) 0,
   congrFun ((MapErr_cases (Ok 7)).2.2.2.2 rfl sampleToNil) 0⟩

/-! ## `result.FlatMap`, `result.AndThen`, `result.Flatten` -/

namespace result

theorem FlatMap_eq_Flatten_Map {σ T U : Type} [PanicArg T] [Inhabited U] (r : Result T)
    (f : T → Go σ (Result U)) (hr : r.IsErr = true → r.err ≠ none) :
    FlatMap r f = (Map r f >>= fun rr => Go.lift (Flatten rr)) := by
  funext s
  cases hok : r.ok with
  | true =>
    rcases hf : f r.value s with ⟨o, s1⟩
    cases o <;>
      simp [FlatMap, Map, Flatten, Result.IsErr, Result.Unwrap, hok, bind, Go.bind,
        Go.lift, pure, hf, Ok]
  | false =>
    have hne : r.err ≠ none := hr (by simp [Result.IsErr, hok])
    obtain ⟨e, he⟩ := Option.ne_none_iff_exists.mp hne
    simp [FlatMap, Map, Flatten, Result.IsErr, Result.UnwrapErr, hok, bind, Go.bind,
      Outcome.bind, Go.lift, pure, ← he, Err]

/-- C22. `FlatMap` is `Flatten` after `Map`. For every Result r that does not
fail with a nil failure, so for every `Ok(v)` and every `Err(e)` with a non-nil
e, and every function f returning a Result:
`FlatMap(r, f) == Flatten(Map(r, f))`, the same Result or panic in the same
world. `AndThen(r, f) == FlatMap(r, f)` for every r. `FlatMap(Ok(v), f)` is the
call `f(v)`, and `FlatMap(Err(e), f)` returns `Err(e)` in an unchanged world,
whatever f is: f is not called. -/
theorem FlatMap_is_Flatten_of_Map {σ T U : Type} [PanicArg T] [Inhabited T]
    [Inhabited U]
    (f : T → Go σ (Result U)) :
    (∀ r : Result T, (r.IsErr = true → r.err ≠ none) →
        FlatMap r f = (Map r f >>= fun rr => Go.lift (Flatten rr)))
    ∧ (∀ v : T, FlatMap (Ok v) f = (Map (Ok v) f >>= fun rr => Go.lift (Flatten rr)))
    ∧ (∀ e : ErrorValue,
        FlatMap (Err (some e) : Result T) f
          = (Map (Err (some e) : Result T) f >>= fun rr => Go.lift (Flatten rr)))
    ∧ (∀ r : Result T, AndThen r f = FlatMap r f)
    ∧ (∀ v : T, FlatMap (Ok v) f = f v)
    ∧ (∀ e : ErrorValue, FlatMap (Err (some e) : Result T) f = pure (Err (some e))) := by
  refine ⟨fun r hr => FlatMap_eq_Flatten_Map r f hr, ?_, ?_, fun _ => rfl, ?_, fun _ => rfl⟩
  · intro v
    exact FlatMap_eq_Flatten_Map (Ok v) f (fun h => absurd h (by simp [Result.IsErr, Ok]))
  · intro e
    exact FlatMap_eq_Flatten_Map (Err (some e)) f (fun _ => by simp [Err])
  · intro v
    funext s
    simp only [FlatMap, Result.IsErr, Ok, Bool.not_true, Bool.false_eq_true, if_false, bind,
      Go.bind, Go.lift, Result.Unwrap]

/-- With a callback that counts its calls: on `Ok(3)` both sides are `Ok(2)` after
one call, on `Ok(0)` the failure of the callback after one call, and on `Err(E)`
the callback is not called. -/
theorem FlatMap_is_Flatten_of_Map_witness :
    FlatMap (Ok 3) samplePred 0 = (.ret (Ok 2), 1)
    ∧ (Map (Ok 3) samplePred >>= fun rr => Go.lift (Flatten rr)) 0 = (.ret (Ok 2), 1)
    ∧ FlatMap (Ok 0) samplePred 0 = (.ret (Err (some (.foreign "zero"))), 1)
    ∧ FlatMap (Err (some (.foreign "E")) : Result Nat) samplePred 0
        = (.ret (Err (some (.foreign "E"))), 0)
    ∧ FlatMap (Ok 3) samplePred = (Map (Ok 3) samplePred >>= fun rr => Go.lift (Flatten rr)) :=
  ⟨congrFun ((FlatMap_is_Flatten_of_Map samplePred).2.2.2.2.1 3) 0,
   rfl,
   congrFun ((FlatMap_is_Flatten_of_Map samplePred).2.2.2.2.1 0) 0,
   congrFun ((FlatMap_is_Flatten_of_Map samplePred).2.2.2.2.2 (.foreign "E")) 0,
   (FlatMap_is_Flatten_of_Map samplePred).1 (Ok 3) (fun h => absurd h (by decide))⟩

end result

end gofp
